import Mathlib

/-!
# Verification of the incremental dungeon generator

Shallow embedding of the core generation engine of the `dungeon-generator`
repository (TypeScript): `PositionCalculator`, `DoorRegistry`,
`SharedWallManager`, `ConnectionPointValidator`, `GridManager`,
`BlockExpansionEngine` and `IncrementalDungeonGenerator`, together with
theorems settling the specification claims about them.

Modelling conventions:
* JavaScript numbers appearing as grid coordinates, sizes and counters are
  embedded as `Int` (all uses in the embedded code stay within exact
  integer range of IEEE doubles).
* JavaScript strings are Lean `String`s; template-literal keys such as
  `door-x-y-dir` are built with `++` and `toString`.
* `Map`/`Set` objects are embedded as insertion-ordered association lists
  (`Map.set` of a present key updates in place, `Set.add` of a present
  element is a no-op), matching JavaScript iteration order.
* Fallible JavaScript expressions (property access on `undefined`) are
  embedded in `Except JsError`; a thrown `TypeError` is `Except.error`.
* Reference sharing between the generator's `rooms`/`corridors` lists and
  the `SharedWallManager`'s `elements` list (the same objects are mutated
  through either list) is modelled by id-keyed write-back synchronisation;
  the modelled flows only ever create elements with pairwise distinct ids.
* `Date.now()` and `Math.random()`-derived values are explicit parameters
  (`clock`, `suffix`, `randIdx`).
-/

set_option maxRecDepth 4000

namespace DungeonGen

/-- JavaScript error values (only `TypeError`s arise in the embedded code). -/
abbrev JsError := String

/-- The error thrown by `getCorridorDirection(path[0], path[1])` when
`path.length === 1`, i.e. reading `.x` of `undefined`. -/
def jsUndefinedRead : JsError := "TypeError: cannot read properties of undefined"

/-- `ToInt32` as performed by JavaScript `x & x` / `<<` on integral doubles:
reduce mod 2^32 into the signed range `[-2^31, 2^31)`. -/
def toInt32 (n : Int) : Int :=
  let m := n % 4294967296
  if m < 2147483648 then m else m - 4294967296

/-- JavaScript `a || b` on an optional string (`undefined` and `""` are falsy). -/
def jsOrString (a : Option String) (b : String) : String :=
  match a with
  | none => b
  | some s => if s = "" then b else s

/-- `String(n).padStart(2, '0')`. -/
def padStart2 (n : Int) : String :=
  let s := toString n
  if s.length < 2 then String.mk (List.replicate (2 - s.length) '0') ++ s else s

/-- Indexing `g[y][x]` on a JavaScript `boolean[][]`: out-of-range access
yields `undefined`, which is falsy, hence the default `false`. -/
def grid2get (g : List (List Bool)) (y x : Int) : Bool :=
  if h : 0 ≤ y ∧ y.toNat < g.length then
    let row := g.get ⟨y.toNat, h.2⟩
    if h2 : 0 ≤ x ∧ x.toNat < row.length then row.get ⟨x.toNat, h2.2⟩ else false
  else false

/-! ## Enumerations (`src/types.ts`) -/

inductive ExitDirection where
  | north | south | east | west
  | northeast | northwest | southeast | southwest
deriving DecidableEq, Repr

/-- The string value of the `ExitDirection` enum member. -/
def dirToString : ExitDirection → String
  | .north => "north"
  | .south => "south"
  | .east => "east"
  | .west => "west"
  | .northeast => "northeast"
  | .northwest => "northwest"
  | .southeast => "southeast"
  | .southwest => "southwest"

inductive DoorState where
  | closed | «open» | locked
deriving DecidableEq, Repr

inductive ConnectionPointState where
  | ungenerated | generating | connected
deriving DecidableEq, Repr

inductive RoomShape where
  | square | rectangle | circle | lshape | tshape | cross | octagon | irregular
deriving DecidableEq, Repr

inductive RoomType where
  | entrance | standard | junction | special
deriving DecidableEq, Repr

inductive RoomSize where
  | small | medium | large | huge
deriving DecidableEq, Repr

inductive CorridorType where
  | straight | corner | tJunction | crossJunction | deadEnd
deriving DecidableEq, Repr

inductive CorridorDirection where
  | horizontal | vertical | northeastD | northwestD | southeastD | southwestD
deriving DecidableEq, Repr

/-! ## Core data structures (`src/types.ts`) -/

structure Position where
  x : Int
  y : Int
deriving DecidableEq, Repr

structure ConnectionPoint where
  direction : ExitDirection
  position : Position
  isConnected : Bool
  connectedElementId : Option String
  isGenerated : Bool
  generationSeed : Option String
  state : ConnectionPointState
deriving DecidableEq, Repr

/-- Template-local connection point (`TemplateConnectionPoint`): direction,
position and an optional original-index tag. -/
structure TemplateConnectionPoint where
  direction : ExitDirection
  position : Position
  index : Option Int := none
deriving DecidableEq, Repr

structure RoomTemplate where
  id : String
  name : String
  shape : RoomShape
  type : RoomType
  size : RoomSize
  width : Int
  height : Int
  connectionPoints : List TemplateConnectionPoint
  gridPattern : List (List Bool)
deriving DecidableEq, Repr

/-- A placed room.  The unused display-only optional fields
(`description`, `contents`) are omitted. -/
structure Room where
  id : String
  shape : RoomShape
  type : RoomType
  size : RoomSize
  position : Position
  width : Int
  height : Int
  connectionPoints : List ConnectionPoint
  templateId : Option String
  isGenerated : Bool
  gridPattern : Option (List (List Bool))
deriving DecidableEq, Repr

structure Corridor where
  id : String
  type : CorridorType
  direction : CorridorDirection
  position : Position
  length : Int
  width : Int
  connectionPoints : List ConnectionPoint
  path : List Position
  isGenerated : Bool
deriving DecidableEq, Repr

structure DoorLocation where
  position : Position
  direction : ExitDirection
  globalId : String
deriving DecidableEq, Repr

structure SharedDoor where
  location : DoorLocation
  state : DoorState
  connectedElements : List String
  isGenerated : Bool
  connectedElementId : Option String
  generationSeed : Option String
deriving DecidableEq, Repr

/-! ## Constants (`src/constants/index.ts`) -/

/-- `ROOM_GENERATION_PROBABILITY = 0.7`.  The only use is the product
`ROOM_GENERATION_PROBABILITY * 10`, and the IEEE-754 double product
`0.7 * 10` rounds (to nearest, ties to even) to exactly `7`; embedding the
constant as the rational `7/10` therefore yields the same comparison
threshold as the JavaScript evaluation. -/
def ROOM_GENERATION_PROBABILITY : ℚ := 7 / 10

def MIN_CORRIDOR_LENGTH : Int := 3
def MAX_CORRIDOR_LENGTH_VARIANCE : Int := 5

/-- `DOOR_POSITION_ADJUSTMENTS` table. -/
def WEST_TO_EAST : Position := ⟨-1, 0⟩
def EAST_TO_WEST : Position := ⟨1, 0⟩
def NORTH_TO_SOUTH : Position := ⟨0, -1⟩
def SOUTH_TO_NORTH : Position := ⟨0, 1⟩

/-! ## PositionCalculator (`src/utils/PositionCalculator.ts`) -/

/-- `PositionCalculator.getOppositeDirection`. -/
def getOppositeDirection : ExitDirection → ExitDirection
  | .north => .south
  | .south => .north
  | .east => .west
  | .west => .east
  | d => d

/-- `PositionCalculator.directionToVector`. -/
def directionToVector : ExitDirection → Position
  | .north => ⟨0, -1⟩
  | .south => ⟨0, 1⟩
  | .east => ⟨1, 0⟩
  | .west => ⟨-1, 0⟩
  | _ => ⟨0, 0⟩

/-- `PositionCalculator.areConnectionPointsConnectable`. -/
def areConnectionPointsConnectable (cp1 cp2 : ConnectionPoint) : Bool :=
  if cp1.position.x ≠ cp2.position.x ∨ cp1.position.y ≠ cp2.position.y then
    false
  else
    cp2.direction = getOppositeDirection cp1.direction

/-- `PositionCalculator.getDoorPositionAdjustment`. -/
def getDoorPositionAdjustment (sourceDirection templateDirection : ExitDirection) : Position :=
  if sourceDirection = .west ∧ templateDirection = .east then WEST_TO_EAST
  else if sourceDirection = .east ∧ templateDirection = .west then EAST_TO_WEST
  else if sourceDirection = .north ∧ templateDirection = .south then NORTH_TO_SOUTH
  else if sourceDirection = .south ∧ templateDirection = .north then SOUTH_TO_NORTH
  else ⟨0, 0⟩

structure RoomPositionCalculation where
  roomPosition : Position
  connectingPointIndex : Int
deriving DecidableEq, Repr

/-- `PositionCalculator.calculateRoomPositionFromConnection`. -/
def calculateRoomPositionFromConnection (connectionPoint : ConnectionPoint)
    (template : RoomTemplate) : RoomPositionCalculation :=
  let oppositeDirection := getOppositeDirection connectionPoint.direction
  let compatible := (template.connectionPoints.enum.map
      (fun p => { p.2 with index := some (p.1 : Int) })).filter
      (fun cp => cp.direction = oppositeDirection)
  match compatible with
  | [] => { roomPosition := ⟨0, 0⟩, connectingPointIndex := -1 }
  | templateCP :: _ =>
    let roomX := connectionPoint.position.x - templateCP.position.x
    let roomY := connectionPoint.position.y - templateCP.position.y
    let adjustment := getDoorPositionAdjustment connectionPoint.direction templateCP.direction
    { roomPosition := ⟨roomX + adjustment.x, roomY + adjustment.y⟩,
      -- `templateCP.index || 0`: the index is always set by the map above;
      -- JavaScript `||` sends both `undefined` and `0` to `0`.
      connectingPointIndex := match templateCP.index with
        | none => 0
        | some i => if i = 0 then 0 else i }

/-! ## DoorRegistry (`src/utils/DoorRegistry.ts`) -/

/-- `DoorRegistry.createDoorId`: the canonical key
`door-${position.x}-${position.y}-${direction}`. -/
def createDoorId (position : Position) (direction : ExitDirection) : String :=
  "door-" ++ toString position.x ++ "-" ++ toString position.y ++ "-" ++ dirToString direction

/-- The registry's backing `Map<string, SharedDoor>` as an insertion-ordered list. -/
abbrev Doors := List SharedDoor

/-- The door stored under a key (`this.doors.get(globalId)`). -/
def getDoor (doors : Doors) (globalId : String) : Option SharedDoor :=
  doors.find? (fun d => d.location.globalId = globalId)

/-- `DoorRegistry.getDoorByLocation`. -/
def getDoorByLocation (doors : Doors) (position : Position)
    (direction : ExitDirection) : Option SharedDoor :=
  getDoor doors (createDoorId position direction)

/-- In-place update of the door stored under a key. -/
def setDoor (doors : Doors) (globalId : String) (f : SharedDoor → SharedDoor) : Doors :=
  doors.map (fun d => if d.location.globalId = globalId then f d else d)

/-- The seed string `${x}-${y}-${direction}-${Date.now()}` used by
`SharedWallManager.generateSeed` and `IncrementalDungeonGenerator.generateSeed`. -/
def generateSeed (cp : ConnectionPoint) (clock : Int) : String :=
  toString cp.position.x ++ "-" ++ toString cp.position.y ++ "-" ++
    dirToString cp.direction ++ "-" ++ toString clock

/-- `DoorRegistry.registerDoor`. -/
def registerDoor (doors : Doors) (position : Position) (direction : ExitDirection)
    (elementId : String) (initialState : DoorState) (generationSeed : Option String) :
    Doors × String :=
  let globalId := createDoorId position direction
  match getDoor doors globalId with
  | some _ =>
    (setDoor doors globalId (fun d =>
      if elementId ∈ d.connectedElements then d
      else { d with connectedElements := d.connectedElements ++ [elementId] }), globalId)
  | none =>
    (doors ++ [{ location := { position := position, direction := direction, globalId := globalId },
                 state := initialState,
                 connectedElements := [elementId],
                 isGenerated := false,
                 connectedElementId := none,
                 generationSeed := generationSeed }], globalId)

/-- `DoorRegistry.updateDoorState`. -/
def updateDoorState (doors : Doors) (globalId : String) (state : DoorState) : Doors :=
  setDoor doors globalId (fun d => { d with state := state })

/-- `DoorRegistry.markDoorAsGenerated`. -/
def markDoorAsGenerated (doors : Doors) (globalId : String)
    (connectedElementId : String) : Doors :=
  setDoor doors globalId (fun d =>
    { d with isGenerated := true, connectedElementId := some connectedElementId })

/-- `DoorRegistry.getDoorState` (defaults to `Closed` for an absent door). -/
def registryGetDoorState (doors : Doors) (position : Position)
    (direction : ExitDirection) : DoorState :=
  match getDoorByLocation doors position direction with
  | some d => d.state
  | none => .closed

/-- `DoorRegistry.isDoorGenerated`. -/
def registryIsDoorGenerated (doors : Doors) (position : Position)
    (direction : ExitDirection) : Bool :=
  match getDoorByLocation doors position direction with
  | some d => d.isGenerated
  | none => false

/-- One step of `DoorRegistry.connectElementToExistingDoors`'s `forEach`:
if a door exists at the point's location, add the element to it and return
the updated connection point. -/
def connectOnePoint (elementId : String) (doors : Doors) (cp : ConnectionPoint) :
    Doors × ConnectionPoint :=
  match getDoorByLocation doors cp.position cp.direction with
  | none => (doors, cp)
  | some existingDoor =>
    let ces := if elementId ∈ existingDoor.connectedElements
      then existingDoor.connectedElements
      else existingDoor.connectedElements ++ [elementId]
    let doors' := setDoor doors existingDoor.location.globalId
      (fun d => { d with connectedElements := ces })
    (doors', { cp with
      isConnected := true,
      isGenerated := existingDoor.isGenerated,
      connectedElementId := ces.head? })

/-- `DoorRegistry.connectElementToExistingDoors`: the `forEach` threads the
registry through the points in order, building the updated copy array. -/
def connectElementToExistingDoors (doors : Doors) (elementId : String) :
    List ConnectionPoint → Doors × List ConnectionPoint
  | [] => (doors, [])
  | cp :: rest =>
    let step := connectOnePoint elementId doors cp
    let restres := connectElementToExistingDoors step.1 elementId rest
    (restres.1, step.2 :: restres.2)

/-! ## SharedWallManager (`src/utils/SharedWallManager.ts`) -/

/-- An element of the shared-wall system (`Room | Corridor`). -/
inductive Element where
  | room (r : Room)
  | corridor (c : Corridor)
deriving DecidableEq, Repr

def Element.id : Element → String
  | .room r => r.id
  | .corridor c => c.id

def Element.connectionPoints : Element → List ConnectionPoint
  | .room r => r.connectionPoints
  | .corridor c => c.connectionPoints

def Element.withConnectionPoints : Element → List ConnectionPoint → Element
  | .room r, cps => .room { r with connectionPoints := cps }
  | .corridor c, cps => .corridor { c with connectionPoints := cps }

/-- The state owned by a `SharedWallManager` instance. -/
structure SWMState where
  elements : List Element
  doors : Doors
deriving DecidableEq, Repr

/-- `SharedWallManager.reset` / freshly constructed manager. -/
def swmReset : SWMState := { elements := [], doors := [] }

/-- `SharedWallManager.getDoorState`. -/
def swmGetDoorState (S : SWMState) (position : Position) (direction : ExitDirection) :
    DoorState :=
  registryGetDoorState S.doors position direction

/-- `SharedWallManager.isDoorGenerated`. -/
def swmIsDoorGenerated (S : SWMState) (position : Position) (direction : ExitDirection) :
    Bool :=
  registryIsDoorGenerated S.doors position direction

/-- Mutate the first element of the list carrying the given id
(`this.elements.find(el => el.id === elementId)` followed by in-place
mutation of the found object). -/
def updateFirstElement (elements : List Element) (elementId : String)
    (f : Element → Element) : List Element :=
  match elements with
  | [] => []
  | e :: rest =>
    if e.id = elementId then f e :: rest
    else e :: updateFirstElement rest elementId f

/-- `SharedWallManager.updateConnectionPointsForAutoOpenedDoor`: set
`isGenerated`/`isConnected` on every connection point of the door's
connected elements that matches the door's exact position and direction. -/
def updateConnectionPointsForAutoOpenedDoor (door : SharedDoor)
    (elements : List Element) : List Element :=
  door.connectedElements.foldl
    (fun els elementId =>
      updateFirstElement els elementId (fun e =>
        e.withConnectionPoints (e.connectionPoints.map (fun cp =>
          if cp.position.x = door.location.position.x ∧
             cp.position.y = door.location.position.y ∧
             cp.direction = door.location.direction then
            { cp with isGenerated := true, isConnected := true }
          else cp))))
    elements

/-- One door's processing inside `SharedWallManager.autoOpenRevealedDoors`:
skip open doors and doors with fewer than two connected elements, otherwise
open, mark generated and back-propagate onto the connection points when all
connected elements are present. -/
def autoOpenOneDoor (S : SWMState) (globalId : String) : SWMState :=
  match getDoor S.doors globalId with
  | none => S
  | some door =>
    if door.state = .open ∨ door.connectedElements.length < 2 then S
    else
      let allElementsExist := door.connectedElements.all
        (fun elementId => S.elements.any (fun e => e.id = elementId))
      if allElementsExist then
        let doors1 := updateDoorState S.doors door.location.globalId .open
        let doors2 := markDoorAsGenerated doors1 door.location.globalId
          (String.intercalate "," door.connectedElements)
        { elements := updateConnectionPointsForAutoOpenedDoor door S.elements,
          doors := doors2 }
      else S

/-- `SharedWallManager.autoOpenRevealedDoors`: iterate over a snapshot of
the registry's doors (`getAllDoors()`), reading each door's live state. -/
def autoOpenRevealedDoors (S : SWMState) : SWMState :=
  (S.doors.map (fun d => d.location.globalId)).foldl autoOpenOneDoor S

/-- The registration loop of `SharedWallManager.addElement`: register a new
closed door for every connection point without an existing door at its
location. -/
def registerNewDoors (clock : Int) (elementId : String) (doors : Doors) :
    List ConnectionPoint → Doors
  | [] => doors
  | cp :: rest =>
    match getDoorByLocation doors cp.position cp.direction with
    | some _ => registerNewDoors clock elementId doors rest
    | none => registerNewDoors clock elementId
        (registerDoor doors cp.position cp.direction elementId .closed
          (some (generateSeed cp clock))).1 rest

/-- `SharedWallManager.addElement`.  Returns the updated manager state and
the element's updated connection-point list (the same objects the element
holds after the call, reflecting any auto-open back-propagation). -/
def addElement (clock : Int) (S : SWMState) (element : Element) :
    SWMState × List ConnectionPoint :=
  let conn := connectElementToExistingDoors S.doors element.id element.connectionPoints
  let element' := element.withConnectionPoints conn.2
  let elements1 := S.elements ++ [element']
  let doors2 := registerNewDoors clock element.id conn.1 conn.2
  let S2 := autoOpenRevealedDoors { elements := elements1, doors := doors2 }
  (S2, match S2.elements.find? (fun e => e.id = element.id) with
       | some e => e.connectionPoints
       | none => conn.2)

/-! ## ConnectionPointValidator (`src/utils/ConnectionPointValidator.ts`) -/

/-- `ConnectionPointValidator.isWithinTemplateBounds`. -/
def isWithinTemplateBounds (cp : TemplateConnectionPoint) (template : RoomTemplate) : Bool :=
  0 ≤ cp.position.x ∧ cp.position.x < template.width ∧
  0 ≤ cp.position.y ∧ cp.position.y < template.height

/-- `ConnectionPointValidator.isOnAvailableSquare` (JavaScript truthiness of
`availableGrid[localY]` for a missing row is handled by the defaulting
getter). -/
def isOnAvailableSquare (cp : TemplateConnectionPoint)
    (availableGrid trimmedPattern : List (List Bool)) : Bool :=
  grid2get availableGrid cp.position.y cp.position.x ∧
  grid2get trimmedPattern cp.position.y cp.position.x

/-- `ConnectionPointValidator.isConnectionPointAvailable`. -/
def isConnectionPointAvailable (cp : TemplateConnectionPoint)
    (availableGrid trimmedPattern : List (List Bool)) (template : RoomTemplate) : Bool :=
  0 ≤ cp.position.x ∧ cp.position.x < template.width ∧
  0 ≤ cp.position.y ∧ cp.position.y < template.height ∧
  grid2get availableGrid cp.position.y cp.position.x ∧
  grid2get trimmedPattern cp.position.y cp.position.x

/-- `ConnectionPointValidator.isOnPerimeter`. -/
def isOnPerimeter (cp : TemplateConnectionPoint) (trimmedPattern : List (List Bool))
    (template : RoomTemplate) : Bool :=
  let localX := cp.position.x
  let localY := cp.position.y
  match cp.direction with
  | .north => localY = 0 ∨ ¬ grid2get trimmedPattern (localY - 1) localX
  | .south => localY = template.height - 1 ∨ ¬ grid2get trimmedPattern (localY + 1) localX
  | .west => localX = 0 ∨ ¬ grid2get trimmedPattern localY (localX - 1)
  | .east => localX = template.width - 1 ∨ ¬ grid2get trimmedPattern localY (localX + 1)
  | _ => true

/-- `ConnectionPointValidator.validateConnectionPoints`: filter the template's
connection points, then tag each survivor with the `map` callback's index —
which is its index in the *filtered* list. -/
def validateConnectionPoints (template : RoomTemplate)
    (availableGrid trimmedPattern : List (List Bool))
    (preserveConnectionIndex : Option Nat) : List TemplateConnectionPoint :=
  ((template.connectionPoints.enum.filter (fun p =>
      let index := p.1
      let cp := p.2
      if preserveConnectionIndex = some index then
        isConnectionPointAvailable cp availableGrid trimmedPattern template
      else
        isWithinTemplateBounds cp template ∧
        isOnAvailableSquare cp availableGrid trimmedPattern ∧
        isOnPerimeter cp trimmedPattern template)).map Prod.snd).enum.map
    (fun p => { p.2 with index := some (p.1 : Int) })

/-- A point equality test used by `updateConnectionPointAsGenerated` and
`findConnectionPoint`: same position coordinates and direction. -/
def cpMatches (cp : ConnectionPoint) (position : Position) (direction : ExitDirection) :
    Bool :=
  cp.position.x = position.x ∧ cp.position.y = position.y ∧ cp.direction = direction

/-- Set `isGenerated`/`isConnected` on the first matching connection point of a
list, reporting whether a match was found. -/
def markFirstMatching (cps : List ConnectionPoint) (position : Position)
    (direction : ExitDirection) : List ConnectionPoint × Bool :=
  match cps with
  | [] => ([], false)
  | cp :: rest =>
    if cpMatches cp position direction then
      ({ cp with isGenerated := true, isConnected := true } :: rest, true)
    else
      let (rest', found) := markFirstMatching rest position direction
      (cp :: rest', found)

/-- `ConnectionPointValidator.updateConnectionPointAsGenerated` restricted to
the room list: find the first room with the source id holding a matching
point, mutate that point, and report success (the JavaScript `return`). -/
def updateCPAsGeneratedRooms (rooms : List Room) (cp : ConnectionPoint)
    (sourceElementId : String) : List Room × Bool :=
  match rooms with
  | [] => ([], false)
  | r :: rest =>
    if r.id = sourceElementId then
      let (cps', found) := markFirstMatching r.connectionPoints cp.position cp.direction
      if found then ({ r with connectionPoints := cps' } :: rest, true)
      else
        let (rest', found') := updateCPAsGeneratedRooms rest cp sourceElementId
        (r :: rest', found')
    else
      let (rest', found') := updateCPAsGeneratedRooms rest cp sourceElementId
      (r :: rest', found')

/-- `updateConnectionPointAsGenerated` restricted to the corridor list. -/
def updateCPAsGeneratedCorridors (corridors : List Corridor) (cp : ConnectionPoint)
    (sourceElementId : String) : List Corridor × Bool :=
  match corridors with
  | [] => ([], false)
  | c :: rest =>
    if c.id = sourceElementId then
      let (cps', found) := markFirstMatching c.connectionPoints cp.position cp.direction
      if found then ({ c with connectionPoints := cps' } :: rest, true)
      else
        let (rest', found') := updateCPAsGeneratedCorridors rest cp sourceElementId
        (c :: rest', found')
    else
      let (rest', found') := updateCPAsGeneratedCorridors rest cp sourceElementId
      (c :: rest', found')

/-- `ConnectionPointValidator.updateConnectionPointAsGenerated`: rooms are
searched first; corridors are only touched if no room matched. -/
def updateConnectionPointAsGenerated (cp : ConnectionPoint) (sourceElementId : String)
    (rooms : List Room) (corridors : List Corridor) : List Room × List Corridor :=
  let (rooms', found) := updateCPAsGeneratedRooms rooms cp sourceElementId
  if found then (rooms', corridors)
  else (rooms', (updateCPAsGeneratedCorridors corridors cp sourceElementId).1)

/-! ## GridManager (`src/utils/GridManager.ts`) -/

/-- The template catalog (`src/data/roomTemplates.ts`).
Modelled from the spec: the catalog file is not part of the provided
sources; per §6 it is a read-only provider of immutable templates exposing
`byType` and `byId` lookups.  It is threaded as an explicit parameter, and
concrete template data used in witnesses and counterexamples is an input
supplied to the model, not an embedding of the repository's data file. -/
structure Catalog where
  templates : List RoomTemplate

/-- `getRoomTemplatesByType`. -/
def getRoomTemplatesByType (cat : Catalog) (t : RoomType) : List RoomTemplate :=
  cat.templates.filter (fun tpl => tpl.type = t)

/-- `getRoomTemplateById`. -/
def getRoomTemplateById (cat : Catalog) (id : String) : Option RoomTemplate :=
  cat.templates.find? (fun tpl => tpl.id = id)

/-- The grid occupancy tracker's state: the `Set` of occupied cell keys.
Cell keys `${x},${y}` are in bijection with integer positions, so the set is
modelled directly over `Position`; `Set.add` of a present member is a no-op. -/
abbrev OccupiedSet := List Position

def occupiedAdd (s : OccupiedSet) (p : Position) : OccupiedSet :=
  if p ∈ s then s else s ++ [p]

/-- `GridManager.isPositionOccupied`. -/
def isPositionOccupied (s : OccupiedSet) (p : Position) : Bool := p ∈ s

/-- `GridManager.isWithinBounds`. -/
def isWithinBounds (gridSize : Int) (p : Position) : Bool :=
  0 ≤ p.x ∧ p.x < gridSize ∧ 0 ≤ p.y ∧ p.y < gridSize

/-- The world cells covered by a boolean pattern anchored at `position`
(the doubly nested loops of `markRoomAsOccupied`). -/
def patternCells (pattern : List (List Bool)) (position : Position) : List Position :=
  (pattern.enum.map (fun row =>
    (row.2.enum.filter (fun c => c.2)).map (fun c =>
      Position.mk (position.x + (c.1 : Int)) (position.y + (row.1 : Int))))).flatten

/-- The world cells of a full `width × height` rectangle at `position`
(the fallback of `markRoomAsOccupied`; note the source iterates x in the
outer loop there). -/
def rectCells (position : Position) (width height : Int) : List Position :=
  ((List.range width.toNat).map (fun x =>
    (List.range height.toNat).map (fun y =>
      Position.mk (position.x + (x : Int)) (position.y + (y : Int))))).flatten

/-- The cells `markRoomAsOccupied` marks for a room: its custom trimmed
pattern if present, else its template's pattern, else the full rectangle. -/
def roomCells (cat : Catalog) (room : Room) : List Position :=
  match room.gridPattern with
  | some pattern => patternCells pattern room.position
  | none =>
    match room.templateId.bind (getRoomTemplateById cat) with
    | some template => patternCells template.gridPattern room.position
    | none => rectCells room.position room.width room.height

/-- `GridManager.markRoomAsOccupied`. -/
def markRoomAsOccupied (cat : Catalog) (s : OccupiedSet) (room : Room) : OccupiedSet :=
  (roomCells cat room).foldl occupiedAdd s

/-- `GridManager.markCorridorAsOccupied`. -/
def markCorridorAsOccupied (s : OccupiedSet) (corridor : Corridor) : OccupiedSet :=
  corridor.path.foldl occupiedAdd s

/-- `GridManager.getAvailableRoomArea` (just the grid; the result record also
returns the requested width and height, unused by the embedded flows). -/
def getAvailableRoomArea (gridSize : Int) (s : OccupiedSet) (position : Position)
    (width height : Int) : List (List Bool) :=
  (List.range height.toNat).map (fun y =>
    (List.range width.toNat).map (fun x =>
      let world := Position.mk (position.x + (x : Int)) (position.y + (y : Int))
      isWithinBounds gridSize world ∧ ¬ isPositionOccupied s world))

/-! ## BlockExpansionEngine (`src/utils/BlockExpansionEngine.ts`) -/

/-- The expansion context (`ExpansionContext`): the grid manager and shared
wall manager references are flattened into the occupancy set and grid size
the engine actually reads. -/
structure ExpansionContext where
  entryPoint : Position
  entryDirection : ExitDirection
  sourceConnectionPoint : ConnectionPoint
  sourceElementId : String
  geomorphBounds : RoomTemplate
  targetPosition : Position
  existingRooms : List Room
  existingCorridors : List Corridor
  gridSize : Int
  occupied : OccupiedSet

structure ExpansionResult where
  expandedBlocks : List Position
  finalConnectionPoints : List ConnectionPoint
  roomBoundsWidth : Int
  roomBoundsHeight : Int

/-- `BlockExpansionEngine.getNeighbors` (north, south, east, west). -/
def getNeighbors (p : Position) : List Position :=
  [⟨p.x, p.y - 1⟩, ⟨p.x, p.y + 1⟩, ⟨p.x + 1, p.y⟩, ⟨p.x - 1, p.y⟩]

/-- `BlockExpansionEngine.getAdjacentPosition`. -/
def getAdjacentPosition (p : Position) : ExitDirection → Position
  | .north => ⟨p.x, p.y - 1⟩
  | .south => ⟨p.x, p.y + 1⟩
  | .east => ⟨p.x + 1, p.y⟩
  | .west => ⟨p.x - 1, p.y⟩
  | _ => p

/-- `BlockExpansionEngine.getExpansionBias`. -/
def getExpansionBias : ExitDirection → Position
  | .north => ⟨0, 1⟩
  | .south => ⟨0, -1⟩
  | .east => ⟨-1, 0⟩
  | .west => ⟨1, 0⟩
  | _ => ⟨0, 0⟩

/-- `BlockExpansionEngine.getDistanceFromEntry`, scaled by 2: the source
computes `|dx| + |dy| - (dx*bx + dy*by) * 0.5` in doubles; doubling gives an
integer with the identical comparison order (the `0.5`-scaled products are
exact in binary floating point). -/
def getDistanceFromEntry2 (position entryPoint bias : Position) : Int :=
  let dx := position.x - entryPoint.x
  let dy := position.y - entryPoint.y
  2 * (dx.natAbs + dy.natAbs : Int) - (dx * bias.x + dy * bias.y)

/-- Insertion sort by the biased distance, modelling `frontier.sort` with the
`distA - distB` comparator (stable, ascending). -/
def insertByDist (entry bias : Position) (p : Position) :
    List Position → List Position
  | [] => [p]
  | q :: rest =>
    if getDistanceFromEntry2 p entry bias < getDistanceFromEntry2 q entry bias then
      p :: q :: rest
    else q :: insertByDist entry bias p rest

def sortFrontier (entry bias : Position) (frontier : List Position) : List Position :=
  frontier.foldl (fun acc p => insertByDist entry bias p acc) []

/-- `BlockExpansionEngine.canExpandTo`: inside the geomorph's bounds and mask,
inside the grid, and not occupied.  The source's early-`return false` chain is
the conjunction of its four gates.  (The `currentBlocks` parameter of the
source is unused by its body.) -/
def canExpandTo (ctx : ExpansionContext) (position : Position) : Bool :=
  let relativeX := position.x - ctx.targetPosition.x
  let relativeY := position.y - ctx.targetPosition.y
  (0 ≤ relativeX ∧ relativeX < ctx.geomorphBounds.width ∧
   0 ≤ relativeY ∧ relativeY < ctx.geomorphBounds.height : Bool) &&
  grid2get ctx.geomorphBounds.gridPattern relativeY relativeX &&
  isWithinBounds ctx.gridSize position &&
  !(isPositionOccupied ctx.occupied position)

/-- The neighbour-admission step inside `expandRoom`'s `while` loop:
`canExpandTo` gate, then the `expandedBlocks.has` deduplication, then
admission into both the block set and the frontier. -/
def expandStep (ctx : ExpansionContext) (acc : List Position × List Position)
    (neighbor : Position) : List Position × List Position :=
  if ¬ canExpandTo ctx neighbor then acc
  else if neighbor ∈ acc.2 then acc
  else (acc.1 ++ [neighbor], acc.2 ++ [neighbor])

/-- The frontier loop of `expandRoom`.  Each admitted cell is pushed to the
frontier exactly once, so the loop performs at most one iteration per cell
ever admitted; the caller supplies fuel exceeding that bound, making the
bounded recursion equal to the source's unbounded `while`. -/
def expandLoop (ctx : ExpansionContext) (bias : Position) :
    Nat → List Position → List Position → List Position
  | 0, _, blocks => blocks
  | _ + 1, [], blocks => blocks
  | fuel + 1, frontier@(_ :: _), blocks =>
    let sorted := sortFrontier ctx.entryPoint bias frontier
    match sorted with
    | [] => blocks
    | currentPos :: rest =>
      let step := (getNeighbors currentPos).foldl (expandStep ctx) (rest, blocks)
      expandLoop ctx bias fuel step.1 step.2

/-- `BlockExpansionEngine.findPerimeterPositions`. -/
def findPerimeterPositions (expandedBlocks : List Position) : List Position :=
  expandedBlocks.filter (fun block =>
    (getNeighbors block).any (fun neighbor => neighbor ∉ expandedBlocks))

/-- `BlockExpansionEngine.shouldPlaceDoor`. -/
def shouldPlaceDoor (ctx : ExpansionContext) (roomPosition : Position)
    (direction : ExitDirection) (adjacentPosition : Position) : Bool :=
  let adjacentHasDoor :=
    (ctx.existingRooms.map Element.room ++ ctx.existingCorridors.map Element.corridor).any
      (fun element => element.connectionPoints.any (fun cp =>
        cp.position.x = adjacentPosition.x ∧
        cp.position.y = adjacentPosition.y ∧
        cp.direction = getOppositeDirection direction))
  if adjacentHasDoor then true
  else
    let relativeX := roomPosition.x - ctx.targetPosition.x
    let relativeY := roomPosition.y - ctx.targetPosition.y
    let templateHasDoor := ctx.geomorphBounds.connectionPoints.any (fun cp =>
      cp.position.x = relativeX ∧ cp.position.y = relativeY ∧ cp.direction = direction)
    if templateHasDoor then
      let adjacentBlocked :=
        ctx.existingRooms.any (fun room =>
          let relX := adjacentPosition.x - room.position.x
          let relY := adjacentPosition.y - room.position.y
          let maskVal : Bool := match room.gridPattern with
            | some pattern => grid2get pattern relY relX
            | none => true
          0 ≤ relX ∧ relX < room.width ∧ 0 ≤ relY ∧ relY < room.height ∧ maskVal) ∨
        ctx.existingCorridors.any (fun corridor =>
          corridor.path.any (fun p =>
            p.x = adjacentPosition.x ∧ p.y = adjacentPosition.y))
      ¬ adjacentBlocked
    else false

/-- `BlockExpansionEngine.generateConnectionPoints`. -/
def generateConnectionPoints (ctx : ExpansionContext)
    (expandedBlocks : List Position) : List ConnectionPoint :=
  let entryCP : ConnectionPoint :=
    { direction := getOppositeDirection ctx.sourceConnectionPoint.direction,
      position := ctx.entryPoint,
      isConnected := true,
      connectedElementId := some ctx.sourceElementId,
      isGenerated := true,
      generationSeed := none,
      state := .connected }
  let perimeterPositions := findPerimeterPositions expandedBlocks
  entryCP :: (perimeterPositions.map (fun perimeterPos =>
    if perimeterPos.x = ctx.entryPoint.x ∧ perimeterPos.y = ctx.entryPoint.y then []
    else
      ([ExitDirection.north, .south, .east, .west].filterMap (fun direction =>
        if shouldPlaceDoor ctx perimeterPos direction
            (getAdjacentPosition perimeterPos direction) then
          some { direction := direction,
                 position := perimeterPos,
                 isConnected := false,
                 connectedElementId := none,
                 isGenerated := false,
                 generationSeed := none,
                 state := ConnectionPointState.ungenerated }
        else none)))).flatten

/-- Minimum of a list of integers; only evaluated on non-empty lists in the
embedded flows (`Math.min(...)` over the non-empty expanded block set). -/
def minimumD : List Int → Int
  | [] => 0
  | x :: xs => xs.foldl min x

def maximumD : List Int → Int
  | [] => 0
  | x :: xs => xs.foldl max x

/-- `BlockExpansionEngine.expandRoom`. -/
def expandRoom (ctx : ExpansionContext) : ExpansionResult :=
  let bias := getExpansionBias ctx.entryDirection
  let fuel := (ctx.geomorphBounds.width * ctx.geomorphBounds.height).toNat + 2
  let expandedPositions := expandLoop ctx bias fuel [ctx.entryPoint] [ctx.entryPoint]
  let minX := minimumD (expandedPositions.map (·.x))
  let maxX := maximumD (expandedPositions.map (·.x))
  let minY := minimumD (expandedPositions.map (·.y))
  let maxY := maximumD (expandedPositions.map (·.y))
  { expandedBlocks := expandedPositions,
    finalConnectionPoints := generateConnectionPoints ctx expandedPositions,
    roomBoundsWidth := maxX - minX + 1,
    roomBoundsHeight := maxY - minY + 1 }

/-! ## IncrementalDungeonGenerator (`src/utils/incrementalDungeonGenerator.ts`) -/

structure GenerationSettings where
  maxRooms : Int
  minRooms : Int
  gridSize : Int
  allowIrregularRooms : Bool
  forceConnectivity : Bool
  maxExitsPerRoom : Int
  roomSpacing : Int
deriving DecidableEq, Repr

/-- `ExplorationState`; `Set`s and the `Map` are insertion-ordered lists. -/
structure ExplorationState where
  discoveredRoomIds : List String
  discoveredCorridorIds : List String
  doorStates : List (String × DoorState)
  unexploredConnectionPoints : List ConnectionPoint
deriving DecidableEq, Repr

/-- `Set.add`: append if absent. -/
def setAdd (s : List String) (x : String) : List String :=
  if x ∈ s then s else s ++ [x]

/-- `Map.set`: update in place if the key is present, else append. -/
def mapSet (m : List (String × DoorState)) (k : String) (v : DoorState) :
    List (String × DoorState) :=
  if m.any (fun p => p.1 = k) then
    m.map (fun p => if p.1 = k then (k, v) else p)
  else m ++ [(k, v)]

structure DungeonMap where
  id : String
  name : String
  rooms : List Room
  corridors : List Corridor
  createdAt : Int
  gridSize : Int
  totalRooms : Int
deriving DecidableEq, Repr

/-- The private fields of an `IncrementalDungeonGenerator` instance
(the grid manager's occupied set and the shared wall manager's state are
inlined). -/
structure GenState where
  settings : GenerationSettings
  rooms : List Room
  corridors : List Corridor
  roomCounter : Int
  gridOccupied : OccupiedSet
  swm : SWMState
  exploration : ExplorationState
deriving DecidableEq, Repr

structure GeneratedElements where
  rooms : List Room
  corridors : List Corridor
deriving DecidableEq, Repr

structure GenerationRequest where
  connectionPoint : ConnectionPoint
  sourceElementId : String
  settings : GenerationSettings
deriving DecidableEq, Repr

/-- Write the (possibly mutated) element objects held by the shared wall
manager back into the generator's lists: in the source both sides hold
references to the same objects; ids are unique along the modelled flows. -/
def syncListsFromSWM (st : GenState) : GenState :=
  { st with
    rooms := st.rooms.map (fun r =>
      match st.swm.elements.find? (fun e => e.id = r.id) with
      | some (.room r') => r'
      | _ => r),
    corridors := st.corridors.map (fun c =>
      match st.swm.elements.find? (fun e => e.id = c.id) with
      | some (.corridor c') => c'
      | _ => c) }

/-- The mirror direction: generator-side mutation of an element object is
visible through the shared wall manager's reference to it. -/
def syncSWMFromLists (st : GenState) : GenState :=
  { st with swm := { st.swm with elements := st.swm.elements.map (fun e =>
      match e with
      | .room r =>
        match st.rooms.find? (fun r2 => r2.id = r.id) with
        | some r2 => .room r2
        | none => e
      | .corridor c =>
        match st.corridors.find? (fun c2 => c2.id = c.id) with
        | some c2 => .corridor c2
        | none => e) } }

/-- `IncrementalDungeonGenerator.seedToNumber`: fold the character codes
through `hash = ((hash << 5) - hash) + char; hash = hash & hash` and take the
absolute value.  `hash << 5` coerces to `Int32`; the subtraction and addition
are exact in doubles; `hash & hash` coerces the result to `Int32`. -/
def seedToNumber (seed : String) : Int :=
  let h := seed.data.foldl
    (fun hash ch =>
      let shifted := toInt32 (32 * hash)
      toInt32 (shifted - hash + (ch.toNat : Int)))
    0
  if h < 0 then -h else h

/-- `IncrementalDungeonGenerator.getCorridorPositionAdjustment`. -/
def getCorridorPositionAdjustment : ExitDirection → Position
  | .north => ⟨0, -1⟩
  | .south => ⟨0, 1⟩
  | .east => ⟨1, 0⟩
  | .west => ⟨-1, 0⟩
  | _ => ⟨0, 0⟩

/-- The iterations `i ≥ 1` of `generateCorridorPath`'s `for` loop: move one
cell, break on leaving the grid, break on occupancy, else push and continue. -/
def corridorPathRest (gridSize : Int) (occupied : OccupiedSet) (v : Position) :
    Nat → Position → List Position
  | 0, _ => []
  | n + 1, pos =>
    let currentPos := Position.mk (pos.x + v.x) (pos.y + v.y)
    if ¬ isWithinBounds gridSize currentPos then []
    else if isPositionOccupied occupied currentPos then []
    else currentPos :: corridorPathRest gridSize occupied v n currentPos

/-- `IncrementalDungeonGenerator.generateCorridorPath`.  The loop's first
iteration (`i = 0`) is unrolled: it does not move and — deliberately in the
source — checks only the grid bounds, not occupancy; the remaining
iterations check both. -/
def generateCorridorPath (gridSize : Int) (occupied : OccupiedSet)
    (connectionPoint : ConnectionPoint) (maxLength : Int) : List Position :=
  let moveVector := directionToVector connectionPoint.direction
  let adjustment := getCorridorPositionAdjustment connectionPoint.direction
  let start := Position.mk (connectionPoint.position.x + adjustment.x)
    (connectionPoint.position.y + adjustment.y)
  match maxLength.toNat with
  | 0 => []
  | n + 1 =>
    if ¬ isWithinBounds gridSize start then []
    else start :: corridorPathRest gridSize occupied moveVector n start

/-- `IncrementalDungeonGenerator.determineCorridorType`. -/
def determineCorridorType (_path : List Position) : CorridorType := .straight

/-- `IncrementalDungeonGenerator.getCorridorDirection`.  The second argument
is `path[1]`, which is `undefined` for a one-cell path; reading `.x` of
`undefined` throws a `TypeError`. -/
def getCorridorDirection (fr : Position) : Option Position →
    Except JsError CorridorDirection
  | none => .error jsUndefinedRead
  | some t =>
    .ok (if t.x > fr.x ∨ t.x < fr.x then .horizontal else .vertical)

/-- `IncrementalDungeonGenerator.generateConnectedCorridor`. -/
def generateConnectedCorridor (st : GenState) (connectionPoint : ConnectionPoint)
    (seed : String) (clock : Int) (suffix : String) :
    Except JsError (GenState × GeneratedElements) :=
  let seedNum := seedToNumber seed
  let corridorLength := MIN_CORRIDOR_LENGTH + seedNum % MAX_CORRIDOR_LENGTH_VARIANCE
  let corridorPath := generateCorridorPath st.settings.gridSize st.gridOccupied
    connectionPoint corridorLength
  match corridorPath with
  | [] => .ok (st, ⟨[], []⟩)
  | p0 :: rest =>
    match getCorridorDirection p0 rest.head? with
    | .error e => .error e
    | .ok dir =>
      let corridor : Corridor :=
        { id := "corridor-" ++ toString clock ++ "-" ++ suffix,
          type := determineCorridorType corridorPath,
          direction := dir,
          position := p0,
          length := (corridorPath.length : Int),
          width := 1,
          isGenerated := true,
          connectionPoints :=
            [{ direction := getOppositeDirection connectionPoint.direction,
               position := p0,
               isConnected := true,
               connectedElementId := some (jsOrString connectionPoint.connectedElementId "unknown"),
               isGenerated := true,
               generationSeed := none,
               state := .connected },
             { direction := connectionPoint.direction,
               position := rest.getLastD p0,
               isConnected := false,
               connectedElementId := none,
               isGenerated := false,
               generationSeed := none,
               state := .ungenerated }],
          path := corridorPath }
      .ok (st, ⟨[], [corridor]⟩)

/-- `IncrementalDungeonGenerator.generateConnectedRoom` (block-expansion
path). -/
def generateConnectedRoom (cat : Catalog) (st : GenState)
    (connectionPoint : ConnectionPoint) (seed : String) (clock : Int)
    (suffix : String) : Except JsError (GenState × GeneratedElements) :=
  let templates := getRoomTemplatesByType cat .standard
  let seedNum := seedToNumber seed
  match templates[(seedNum % (templates.length : Int)).toNat]? with
  | none => .error jsUndefinedRead
  | some template =>
    let rpc := calculateRoomPositionFromConnection connectionPoint template
    if rpc.connectingPointIndex = -1 then
      generateConnectedCorridor st connectionPoint seed clock suffix
    else
      match template.connectionPoints[rpc.connectingPointIndex.toNat]? with
      | none => .error jsUndefinedRead
      | some templateConnectionPoint =>
        let entryPoint := Position.mk
          (rpc.roomPosition.x + templateConnectionPoint.position.x)
          (rpc.roomPosition.y + templateConnectionPoint.position.y)
        let ctx : ExpansionContext :=
          { entryPoint := entryPoint,
            entryDirection := connectionPoint.direction,
            sourceConnectionPoint := connectionPoint,
            sourceElementId := jsOrString connectionPoint.connectedElementId "unknown",
            geomorphBounds := template,
            targetPosition := rpc.roomPosition,
            existingRooms := st.rooms,
            existingCorridors := st.corridors,
            gridSize := st.settings.gridSize,
            occupied := st.gridOccupied }
        let expansionResult := expandRoom ctx
        if expansionResult.expandedBlocks.length = 0 then
          let minimalRoom : Room :=
            { id := "room-" ++ padStart2 st.roomCounter,
              shape := template.shape,
              type := template.type,
              size := template.size,
              position := entryPoint,
              width := 1,
              height := 1,
              templateId := some template.id,
              gridPattern := some [[true]],
              isGenerated := true,
              connectionPoints :=
                [{ direction := getOppositeDirection connectionPoint.direction,
                   position := entryPoint,
                   isConnected := true,
                   connectedElementId := some (jsOrString connectionPoint.connectedElementId "unknown"),
                   isGenerated := true,
                   generationSeed := none,
                   state := .connected }] }
          .ok ({ st with roomCounter := st.roomCounter + 1 }, ⟨[minimalRoom], []⟩)
        else
          let minX := minimumD (expansionResult.expandedBlocks.map (·.x))
          let minY := minimumD (expansionResult.expandedBlocks.map (·.y))
          let maxX := maximumD (expansionResult.expandedBlocks.map (·.x))
          let maxY := maximumD (expansionResult.expandedBlocks.map (·.y))
          let roomWidth := maxX - minX + 1
          let roomHeight := maxY - minY + 1
          let gridPattern : List (List Bool) :=
            (List.range roomHeight.toNat).map (fun y =>
              (List.range roomWidth.toNat).map (fun x =>
                expansionResult.expandedBlocks.any (fun block =>
                  block.x = minX + (x : Int) ∧ block.y = minY + (y : Int))))
          let newRoom : Room :=
            { id := "room-" ++ padStart2 st.roomCounter,
              shape := template.shape,
              type := template.type,
              size := template.size,
              position := ⟨minX, minY⟩,
              width := roomWidth,
              height := roomHeight,
              templateId := some template.id,
              gridPattern := some gridPattern,
              isGenerated := true,
              connectionPoints := expansionResult.finalConnectionPoints }
          .ok ({ st with roomCounter := st.roomCounter + 1 }, ⟨[newRoom], []⟩)

/-- `IncrementalDungeonGenerator.generateConnectedContent`: the room/corridor
branch choice `seedNum % 10 < ROOM_GENERATION_PROBABILITY * 10`. -/
def generateConnectedContent (cat : Catalog) (st : GenState)
    (connectionPoint : ConnectionPoint) (seed : String)
    (_sourceElementId : String) (clock : Int) (suffix : String) :
    Except JsError (GenState × GeneratedElements) :=
  let seedNum := seedToNumber seed
  -- `seedNum % 10 < ROOM_GENERATION_PROBABILITY * 10`: the JavaScript double
  -- product `0.7 * 10` evaluates to exactly `7` (`room_probability_times_ten`
  -- below), so the comparison is embedded with the integer threshold `7`.
  if seedNum % 10 < 7 then
    generateConnectedRoom cat st connectionPoint seed clock suffix
  else
    generateConnectedCorridor st connectionPoint seed clock suffix

/-- `IncrementalDungeonGenerator.syncAllDoorStates`. -/
def syncAllDoorStates (st : GenState) : GenState :=
  let afterRooms := st.rooms.foldl
    (fun st room =>
      room.connectionPoints.enum.foldl
        (fun (st : GenState) p =>
          let doorId := room.id ++ "-door-" ++ toString p.1
          let gds := swmGetDoorState st.swm p.2.position p.2.direction
          { st with exploration := { st.exploration with
              doorStates := mapSet st.exploration.doorStates doorId gds } })
        st)
    st
  st.corridors.foldl
    (fun st corridor =>
      corridor.connectionPoints.enum.foldl
        (fun (st : GenState) p =>
          let doorId := corridor.id ++ "-door-" ++ toString p.1
          let gds := swmGetDoorState st.swm p.2.position p.2.direction
          { st with exploration := { st.exploration with
              doorStates := mapSet st.exploration.doorStates doorId gds } })
        st)
    afterRooms

/-- The per-room body of `integrateGeneratedElements`'s first `forEach`. -/
def integrateOneRoom (cat : Catalog) (clock : Int) (st : GenState) (room : Room) :
    GenState :=
  let st := { st with
    rooms := st.rooms ++ [room],
    exploration := { st.exploration with
      discoveredRoomIds := setAdd st.exploration.discoveredRoomIds room.id },
    gridOccupied := markRoomAsOccupied cat st.gridOccupied room }
  let res := addElement clock st.swm (.room room)
  let st := syncListsFromSWM { st with swm := res.1 }
  res.2.enum.foldl
    (fun (st : GenState) p =>
      let doorId := room.id ++ "-door-" ++ toString p.1
      let gds := swmGetDoorState st.swm p.2.position p.2.direction
      let st := { st with exploration := { st.exploration with
        doorStates := mapSet st.exploration.doorStates doorId gds } }
      if ¬ p.2.isGenerated ∧ gds ≠ .open then
        { st with exploration := { st.exploration with
            unexploredConnectionPoints := st.exploration.unexploredConnectionPoints ++
              [{ p.2 with generationSeed := some (generateSeed p.2 clock) }] } }
      else st)
    st

/-- The per-corridor body of `integrateGeneratedElements`'s second `forEach`. -/
def integrateOneCorridor (clock : Int) (st : GenState) (corridor : Corridor) :
    GenState :=
  let st := { st with
    corridors := st.corridors ++ [corridor],
    exploration := { st.exploration with
      discoveredCorridorIds := setAdd st.exploration.discoveredCorridorIds corridor.id },
    gridOccupied := markCorridorAsOccupied st.gridOccupied corridor }
  let res := addElement clock st.swm (.corridor corridor)
  let st := syncListsFromSWM { st with swm := res.1 }
  res.2.enum.foldl
    (fun (st : GenState) p =>
      let doorId := corridor.id ++ "-door-" ++ toString p.1
      let gds := swmGetDoorState st.swm p.2.position p.2.direction
      let st := { st with exploration := { st.exploration with
        doorStates := mapSet st.exploration.doorStates doorId gds } }
      if ¬ p.2.isGenerated ∧ gds ≠ .open then
        { st with exploration := { st.exploration with
            unexploredConnectionPoints := st.exploration.unexploredConnectionPoints ++
              [{ p.2 with generationSeed := some (generateSeed p.2 clock) }] } }
      else st)
    st

/-- `IncrementalDungeonGenerator.integrateGeneratedElements`. -/
def integrateGeneratedElements (cat : Catalog) (clock : Int) (st : GenState)
    (generated : GeneratedElements) (connectionPoint : ConnectionPoint)
    (sourceElementId : String) : GenState :=
  let st := generated.rooms.foldl (integrateOneRoom cat clock) st
  let st := generated.corridors.foldl (integrateOneCorridor clock) st
  let (rooms', corridors') :=
    updateConnectionPointAsGenerated connectionPoint sourceElementId st.rooms st.corridors
  let st := syncSWMFromLists { st with rooms := rooms', corridors := corridors' }
  let st := syncAllDoorStates st
  { st with exploration := { st.exploration with
      unexploredConnectionPoints := st.exploration.unexploredConnectionPoints.filter
        (fun cp =>
          let doorState := swmGetDoorState st.swm cp.position cp.direction
          cp.generationSeed ≠ connectionPoint.generationSeed ∧ doorState ≠ .open) } }

/-- `IncrementalDungeonGenerator.createDungeonMap`. -/
def createDungeonMap (st : GenState) (clock : Int) : DungeonMap :=
  { id := "dungeon-" ++ toString clock,
    name := "Incremental Dungeon",
    rooms := st.rooms,
    corridors := st.corridors,
    createdAt := clock,
    gridSize := st.settings.gridSize,
    totalRooms := (st.rooms.length : Int) }

/-- `IncrementalDungeonGenerator.rollbackToSnapshot`: restore the four owned
pieces from the snapshot, reset both trackers, then re-mark and re-register
every element (mutating the restored element objects through the shared
references, modelled by the write-back sync). -/
def rollbackRoomStep (cat : Catalog) (clock : Int) (st : GenState) (room : Room) :
    GenState :=
  let st := { st with gridOccupied := markRoomAsOccupied cat st.gridOccupied room }
  syncListsFromSWM { st with swm := (addElement clock st.swm (.room room)).1 }

def rollbackCorridorStep (clock : Int) (st : GenState) (corridor : Corridor) :
    GenState :=
  let st := { st with gridOccupied := markCorridorAsOccupied st.gridOccupied corridor }
  syncListsFromSWM { st with swm := (addElement clock st.swm (.corridor corridor)).1 }

def rollbackToSnapshot (cat : Catalog) (clock : Int) (snapshot : GenState) :
    GenState :=
  let base := { snapshot with gridOccupied := ([] : OccupiedSet), swm := swmReset }
  let afterRooms := snapshot.rooms.foldl (rollbackRoomStep cat clock) base
  snapshot.corridors.foldl (rollbackCorridorStep clock) afterRooms

/-- The body of `generateFromConnectionPoint`'s `try` block. -/
def genAttempt (cat : Catalog) (clock : Int) (suffix : String) (st : GenState)
    (request : GenerationRequest) : Except JsError (GenState × DungeonMap) :=
  let cp := request.connectionPoint
  let seed := jsOrString cp.generationSeed (generateSeed cp clock)
  match generateConnectedContent cat st cp seed request.sourceElementId clock suffix with
  | .error e => .error e
  | .ok (st1, generatedElements) =>
    if generatedElements.rooms.length = 0 ∧ generatedElements.corridors.length = 0 then
      .ok (st1, createDungeonMap st1 clock)
    else
      let st2 := integrateGeneratedElements cat clock st1 generatedElements cp
        request.sourceElementId
      .ok (st2, createDungeonMap st2 clock)

/-- `IncrementalDungeonGenerator.generateFromConnectionPoint`: snapshot, try,
and on any exception roll back and return the map of the rolled-back state.
The snapshot is the pre-call state value: the only failing path
(`getCorridorDirection` on a one-cell path) performs no mutation before the
throw, so the source's shallow array copies restore exactly this value. -/
def generateFromConnectionPoint (cat : Catalog) (clock : Int) (suffix : String)
    (st : GenState) (request : GenerationRequest) :
    Except JsError (GenState × DungeonMap) :=
  match genAttempt cat clock suffix st request with
  | .ok r => .ok r
  | .error _ =>
    let rolled := rollbackToSnapshot cat clock st
    .ok (rolled, createDungeonMap rolled clock)

/-- `IncrementalDungeonGenerator.openDoor`.  The transient mutations of the
caller-owned `connectionPoint.state` field act on an object outside the
generator's own state and are modelled as local. -/
def openDoor (cat : Catalog) (clock : Int) (suffix : String) (st : GenState)
    (doorId : String) (connectionPoint : ConnectionPoint) (sourceElementId : String) :
    Except JsError (GenState × DungeonMap) :=
  let st0 := { st with exploration := { st.exploration with
    doorStates := mapSet st.exploration.doorStates doorId .open } }
  if connectionPoint.state = .generating ∨ connectionPoint.state = .connected then
    let st1 := syncAllDoorStates st0
    .ok (st1, createDungeonMap st1 clock)
  else
    let globalDoorState := swmGetDoorState st0.swm connectionPoint.position
      connectionPoint.direction
    let isAlreadyGenerated := swmIsDoorGenerated st0.swm connectionPoint.position
      connectionPoint.direction
    if globalDoorState = .open ∨ isAlreadyGenerated ∨ connectionPoint.isGenerated then
      let st1 := syncAllDoorStates st0
      .ok (st1, createDungeonMap st1 clock)
    else if ¬ connectionPoint.isGenerated then
      match generateFromConnectionPoint cat clock suffix st0
        { connectionPoint := connectionPoint,
          sourceElementId := sourceElementId,
          settings := st0.settings } with
      | .ok r => .ok r
      | .error e => .error e
    else
      .ok (st0, createDungeonMap st0 clock)

/-- `IncrementalDungeonGenerator.reset` together with the constructor's
initial field values. -/
def resetState (settings : GenerationSettings) : GenState :=
  { settings := settings,
    rooms := [],
    corridors := [],
    roomCounter := 0,
    gridOccupied := [],
    swm := swmReset,
    exploration := { discoveredRoomIds := [], discoveredCorridorIds := [],
                     doorStates := [], unexploredConnectionPoints := [] } }

/-- `IncrementalDungeonGenerator.findEntrancePosition`
(`gridSize` is positive, so Lean's integer division agrees with
`Math.floor`). -/
def findEntrancePosition (settings : GenerationSettings) : Position :=
  ⟨settings.gridSize / 2 - 3, settings.gridSize / 2 - 2⟩

/-- `IncrementalDungeonGenerator.generateInitialDungeon`.  `randIdx` stands
for `Math.floor(Math.random() * templates.length)`; an out-of-range value
corresponds to the `undefined` access that would throw on an empty catalog. -/
def generateInitialDungeon (cat : Catalog) (randIdx : Nat) (clock : Int)
    (settings : GenerationSettings) : Except JsError (GenState × DungeonMap) :=
  let st0 := resetState settings
  let templates := getRoomTemplatesByType cat .entrance
  match templates[randIdx]? with
  | none => .error jsUndefinedRead
  | some template =>
    let startPosition := findEntrancePosition settings
    let entranceRoom : Room :=
      { id := "room-" ++ padStart2 st0.roomCounter,
        shape := template.shape,
        type := .entrance,
        size := template.size,
        position := startPosition,
        width := template.width,
        height := template.height,
        templateId := some template.id,
        isGenerated := true,
        gridPattern := none,
        connectionPoints := template.connectionPoints.map (fun tcp =>
          { direction := tcp.direction,
            position := ⟨startPosition.x + tcp.position.x, startPosition.y + tcp.position.y⟩,
            isConnected := false,
            connectedElementId := none,
            isGenerated := false,
            generationSeed := none,
            state := .ungenerated }) }
    let st1 := { st0 with
      rooms := [entranceRoom],
      roomCounter := st0.roomCounter + 1,
      exploration := { st0.exploration with
        discoveredRoomIds := setAdd st0.exploration.discoveredRoomIds entranceRoom.id } }
    let st2 := { st1 with
      gridOccupied := markRoomAsOccupied cat st1.gridOccupied entranceRoom }
    let res := addElement clock st2.swm (.room entranceRoom)
    let st3 := syncListsFromSWM { st2 with swm := res.1 }
    let st4 := res.2.enum.foldl
      (fun (st : GenState) p =>
        let doorId := entranceRoom.id ++ "-door-" ++ toString p.1
        let gds := swmGetDoorState st.swm p.2.position p.2.direction
        let st := { st with exploration := { st.exploration with
          doorStates := mapSet st.exploration.doorStates doorId gds } }
        if ¬ p.2.isGenerated then
          { st with exploration := { st.exploration with
              unexploredConnectionPoints := st.exploration.unexploredConnectionPoints ++
                [{ p.2 with generationSeed := some (generateSeed p.2 clock) }] } }
        else st)
      st3
    .ok (st4, createDungeonMap st4 clock)

/-! ## General lemmas about the block-expansion loop -/

theorem expandStep_blocks_subset (ctx : ExpansionContext)
    (acc : List Position × List Position) (n : Position) :
    acc.2 ⊆ (expandStep ctx acc n).2 := by
  unfold expandStep
  split
  · exact fun _ h => h
  · split
    · exact fun _ h => h
    · exact fun p hp => List.mem_append_left _ hp

theorem foldl_expandStep_subset (ctx : ExpansionContext) (ns : List Position) :
    ∀ acc : List Position × List Position, acc.2 ⊆ (ns.foldl (expandStep ctx) acc).2 := by
  induction ns with
  | nil => exact fun _ _ h => h
  | cons n ns ih =>
    intro acc p hp
    exact ih (expandStep ctx acc n) (expandStep_blocks_subset ctx acc n hp)

theorem expandStep_blocks_prop (ctx : ExpansionContext) (P : Position → Prop)
    (hnew : ∀ q, canExpandTo ctx q = true → P q)
    (acc : List Position × List Position) (n : Position)
    (hacc : ∀ p ∈ acc.2, P p) : ∀ p ∈ (expandStep ctx acc n).2, P p := by
  unfold expandStep
  split
  · exact hacc
  · next hcan =>
    split
    · exact hacc
    · intro p hp
      rcases List.mem_append.mp hp with h | h
      · exact hacc p h
      · rcases List.mem_singleton.mp h with rfl
        exact hnew p (by simpa using hcan)

theorem foldl_expandStep_prop (ctx : ExpansionContext) (P : Position → Prop)
    (hnew : ∀ q, canExpandTo ctx q = true → P q) (ns : List Position) :
    ∀ acc : List Position × List Position, (∀ p ∈ acc.2, P p) →
      ∀ p ∈ (ns.foldl (expandStep ctx) acc).2, P p := by
  induction ns with
  | nil => exact fun _ hacc => hacc
  | cons n ns ih =>
    intro acc hacc
    exact ih (expandStep ctx acc n) (expandStep_blocks_prop ctx P hnew acc n hacc)

theorem expandLoop_blocks_subset (ctx : ExpansionContext) (bias : Position) :
    ∀ (fuel : Nat) (frontier blocks : List Position),
      blocks ⊆ expandLoop ctx bias fuel frontier blocks := by
  intro fuel
  induction fuel with
  | zero => intro _ _ _ h; simpa [expandLoop] using h
  | succ fuel ih =>
    intro frontier blocks
    match frontier with
    | [] => intro p hp; simpa [expandLoop] using hp
    | f :: fs =>
      show blocks ⊆ expandLoop ctx bias (fuel + 1) (f :: fs) blocks
      rw [expandLoop]
      cases hs : sortFrontier ctx.entryPoint bias (f :: fs) with
      | nil => exact fun p hp => hp
      | cons currentPos rest =>
        intro p hp
        exact ih _ _ (foldl_expandStep_subset ctx (getNeighbors currentPos) (rest, blocks) hp)

theorem expandLoop_blocks_prop (ctx : ExpansionContext) (bias : Position)
    (P : Position → Prop) (hnew : ∀ q, canExpandTo ctx q = true → P q) :
    ∀ (fuel : Nat) (frontier blocks : List Position), (∀ p ∈ blocks, P p) →
      ∀ p ∈ expandLoop ctx bias fuel frontier blocks, P p := by
  intro fuel
  induction fuel with
  | zero => intro _ _ hb; simpa [expandLoop] using hb
  | succ fuel ih =>
    intro frontier blocks hb
    match frontier with
    | [] => simpa [expandLoop] using hb
    | f :: fs =>
      rw [expandLoop]
      cases hs : sortFrontier ctx.entryPoint bias (f :: fs) with
      | nil => exact hb
      | cons currentPos rest =>
        exact ih _ _ (foldl_expandStep_prop ctx P hnew (getNeighbors currentPos)
          (rest, blocks) hb)

/-- The entry point is in the expanded block set: it is seeded into the set
before the loop, unconditionally. -/
theorem expandRoom_entry_mem (ctx : ExpansionContext) :
    ctx.entryPoint ∈ (expandRoom ctx).expandedBlocks := by
  unfold expandRoom
  exact expandLoop_blocks_subset ctx _ _ _ _ (List.mem_singleton.mpr rfl)

/-- Every expanded block is the entry point or passed `canExpandTo`. -/
theorem expandRoom_blocks_char (ctx : ExpansionContext) :
    ∀ p ∈ (expandRoom ctx).expandedBlocks,
      p = ctx.entryPoint ∨ canExpandTo ctx p = true := by
  unfold expandRoom
  exact expandLoop_blocks_prop ctx _ _ (fun q h => Or.inr h) _ _ _
    (by intro p hp; exact Or.inl (List.mem_singleton.mp hp))

theorem canExpandTo_not_occupied {ctx : ExpansionContext} {p : Position}
    (h : canExpandTo ctx p = true) : isPositionOccupied ctx.occupied p = false := by
  simp only [canExpandTo, Bool.and_eq_true, Bool.not_eq_true'] at h
  exact h.2

theorem canExpandTo_bounds {ctx : ExpansionContext} {p : Position}
    (h : canExpandTo ctx p = true) : isWithinBounds ctx.gridSize p = true := by
  simp only [canExpandTo, Bool.and_eq_true] at h
  exact h.1.2

theorem canExpandTo_mask {ctx : ExpansionContext} {p : Position}
    (h : canExpandTo ctx p = true) :
    grid2get ctx.geomorphBounds.gridPattern (p.y - ctx.targetPosition.y)
      (p.x - ctx.targetPosition.x) = true := by
  simp only [canExpandTo, Bool.and_eq_true] at h
  exact h.1.1.2

/-! ## General lemmas about the corridor path loop -/

theorem corridorPathRest_bounds (gridSize : Int) (occupied : OccupiedSet) (v : Position) :
    ∀ (n : Nat) (pos : Position),
      ∀ p ∈ corridorPathRest gridSize occupied v n pos,
        isWithinBounds gridSize p = true := by
  intro n
  induction n with
  | zero => intro pos p hp; simp [corridorPathRest] at hp
  | succ n ih =>
    intro pos p hp
    rw [corridorPathRest] at hp
    split at hp
    · simp at hp
    · next hbounds =>
      split at hp
      · simp at hp
      · rcases List.mem_cons.mp hp with rfl | h
        · simpa using hbounds
        · exact ih _ _ h

theorem corridorPathRest_unoccupied (gridSize : Int) (occupied : OccupiedSet) (v : Position) :
    ∀ (n : Nat) (pos : Position),
      ∀ p ∈ corridorPathRest gridSize occupied v n pos,
        isPositionOccupied occupied p = false := by
  intro n
  induction n with
  | zero => intro pos p hp; simp [corridorPathRest] at hp
  | succ n ih =>
    intro pos p hp
    rw [corridorPathRest] at hp
    split at hp
    · simp at hp
    · split at hp
      · simp at hp
      · next hocc =>
        rcases List.mem_cons.mp hp with rfl | h
        · simpa using hocc
        · exact ih _ _ h

/-- Every cell of a generated corridor path after the first is unoccupied in
the grid tracker at generation time (index 0 is deliberately unchecked). -/
theorem generateCorridorPath_tail_unoccupied (gridSize : Int) (occupied : OccupiedSet)
    (cp : ConnectionPoint) (maxLength : Int) :
    ∀ p ∈ (generateCorridorPath gridSize occupied cp maxLength).tail,
      isPositionOccupied occupied p = false := by
  intro p hp
  simp only [generateCorridorPath] at hp
  split at hp
  · simp at hp
  · split at hp
    · simp at hp
    · rw [List.tail_cons] at hp
      exact corridorPathRest_unoccupied gridSize occupied _ _ _ p hp

theorem generateCorridorPath_bounds (gridSize : Int) (occupied : OccupiedSet)
    (cp : ConnectionPoint) (maxLength : Int) :
    ∀ p ∈ generateCorridorPath gridSize occupied cp maxLength,
      isWithinBounds gridSize p = true := by
  intro p hp
  simp only [generateCorridorPath] at hp
  split at hp
  · simp at hp
  · split at hp
    · simp at hp
    · next hbounds =>
      rcases List.mem_cons.mp hp with rfl | h
      · simpa using hbounds
      · exact corridorPathRest_bounds gridSize occupied _ _ _ p h

/-! ## Small helper lemmas -/

theorem Position.ext' {p q : Position} (hx : p.x = q.x) (hy : p.y = q.y) : p = q := by
  cases p; cases q; simp_all

/-- A cardinal (non-diagonal) direction. -/
def isCardinal (d : ExitDirection) : Bool :=
  d = .north ∨ d = .south ∨ d = .east ∨ d = .west

theorem string_append_right_ne (s : String) {t u : String} (h : t.data ≠ u.data) :
    s ++ t ≠ s ++ u := by
  intro he
  apply h
  have hd : (s ++ t).data = (s ++ u).data := congrArg String.data he
  rw [String.data_append, String.data_append] at hd
  exact List.append_cancel_left hd

theorem connectable_spec {cp1 cp2 : ConnectionPoint}
    (h : areConnectionPointsConnectable cp1 cp2 = true) :
    cp1.position = cp2.position ∧ cp2.direction = getOppositeDirection cp1.direction := by
  unfold areConnectionPointsConnectable at h
  split at h
  · cases h
  · next hcond =>
    have hx := not_or.mp hcond
    exact ⟨Position.ext' (not_not.mp hx.1) (not_not.mp hx.2), by simpa using h⟩

/-! ## Concrete instances used by witnesses and counterexamples

The template data here is an input supplied to the embedded functions; the
repository's own template catalog file is not among the provided sources. -/

def testSettings : GenerationSettings :=
  { maxRooms := 12, minRooms := 6, gridSize := 30, allowIrregularRooms := true,
    forceConnectivity := true, maxExitsPerRoom := 4, roomSpacing := 1 }

/-- Modelled from the spec: a minimal entrance geomorph (the catalog's
entrance templates are static data outside the provided sources): a 2×2 full
mask with one north-facing doorway on its perimeter. -/
def entranceTemplate : RoomTemplate :=
  { id := "ent", name := "ent", shape := .square, type := .entrance, size := .small,
    width := 2, height := 2, connectionPoints := [⟨.north, ⟨0, 0⟩, none⟩],
    gridPattern := [[true, true], [true, true]] }

def catE : Catalog := ⟨[entranceTemplate]⟩

def extractState (r : Except JsError (GenState × DungeonMap)) : GenState :=
  match r with
  | .ok p => p.1
  | .error _ => resetState testSettings

/-- The generator state after `generateInitialDungeon` at clock 100. -/
def initState : GenState :=
  extractState (generateInitialDungeon catE 0 100 testSettings)

/-- A connection point one cell from the east edge of the 30×30 grid: its
corridor path exits the grid on the first extension step.  The seed `"a"`
hashes to 97, and `97 % 10 = 7 ≥ 7` selects the corridor branch with length
`3 + 97 % 5 = 5`. -/
def cp8 : ConnectionPoint :=
  { direction := .east, position := ⟨28, 5⟩, isConnected := false,
    connectedElementId := none, isGenerated := false, generationSeed := some "a",
    state := .ungenerated }

def reqFail : GenerationRequest := ⟨cp8, "room-00", testSettings⟩

def cpReq1 : ConnectionPoint :=
  { direction := .east, position := ⟨5, 5⟩, isConnected := false,
    connectedElementId := none, isGenerated := false, generationSeed := some "a",
    state := .ungenerated }

def cpReq2 : ConnectionPoint :=
  { direction := .north, position := ⟨7, 6⟩, isConnected := false,
    connectedElementId := none, isGenerated := false, generationSeed := some "a",
    state := .ungenerated }

def c3mid : GenState :=
  extractState (generateFromConnectionPoint catE 200 "aa" initState
    ⟨cpReq1, "room-00", testSettings⟩)

def c3final : GenState :=
  extractState (generateFromConnectionPoint catE 300 "bb" c3mid
    ⟨cpReq2, "room-00", testSettings⟩)

/-- A standard template with an inward-facing declared doorway: the east
door at local cell (1,0) points at local cell (2,0), which is inside the
template's own mask. -/
def inwardTemplate : RoomTemplate :=
  { id := "t6", name := "t6", shape := .rectangle, type := .standard, size := .small,
    width := 3, height := 1,
    connectionPoints := [⟨.west, ⟨0, 0⟩, none⟩, ⟨.east, ⟨1, 0⟩, none⟩],
    gridPattern := [[true, true, true]] }

def cat6 : Catalog := ⟨[inwardTemplate]⟩

/-- Seed `"j"` hashes to 106; `106 % 10 = 6 < 7` selects the room branch. -/
def cp6 : ConnectionPoint :=
  { direction := .east, position := ⟨9, 0⟩, isConnected := false,
    connectedElementId := some "src", isGenerated := false, generationSeed := some "j",
    state := .ungenerated }

def c6state : GenState :=
  extractState (generateFromConnectionPoint cat6 500 "dd" (resetState testSettings)
    ⟨cp6, "src", testSettings⟩)

def c1cpA : ConnectionPoint :=
  { direction := .east, position := ⟨0, 0⟩, isConnected := false,
    connectedElementId := none, isGenerated := false, generationSeed := none,
    state := .ungenerated }

def c1cpB : ConnectionPoint := { c1cpA with direction := .west }

/-- Template exhibiting the index bug of `validateConnectionPoints`: point 0
is out of template bounds and filtered away, point 1 survives. -/
def idxTemplate : RoomTemplate :=
  { id := "t9", name := "t9", shape := .square, type := .standard, size := .small,
    width := 2, height := 1,
    connectionPoints := [⟨.north, ⟨0, 5⟩, none⟩, ⟨.north, ⟨1, 0⟩, none⟩],
    gridPattern := [[true, true]] }

/-- A 1×2 standard template whose single declared door faces outward (its
south door at local cell (0,1) points at (0,2), outside the mask). -/
def outwardTemplate : RoomTemplate :=
  { id := "tw", name := "tw", shape := .rectangle, type := .standard, size := .small,
    width := 1, height := 2, connectionPoints := [⟨.south, ⟨0, 1⟩, none⟩],
    gridPattern := [[true], [true]] }

/-- A minimal expansion context with the outward one-door template, used to
instantiate the universally quantified theorems. -/
def ctxSmall : ExpansionContext :=
  { entryPoint := ⟨5, 5⟩,
    entryDirection := .south,
    sourceConnectionPoint :=
      { direction := .south, position := ⟨5, 4⟩, isConnected := false,
        connectedElementId := some "src", isGenerated := false,
        generationSeed := none, state := .ungenerated },
    sourceElementId := "src",
    geomorphBounds := outwardTemplate,
    targetPosition := ⟨5, 5⟩,
    existingRooms := [],
    existingCorridors := [],
    gridSize := 30,
    occupied := [⟨5, 4⟩] }

/-! ## Claim C1 -/

/-- C1 (counterexample): the two sides of one shared doorway — connection
points at the identical position facing opposite cardinal directions — are
connectable, yet `createDoorId` gives them two *different* keys, so they do
not resolve to the same `SharedDoor` record. -/
theorem c1_counterexample :
    areConnectionPointsConnectable c1cpA c1cpB = true ∧
    createDoorId c1cpA.position c1cpA.direction ≠
      createDoorId c1cpB.position c1cpB.direction := by
  decide

/-- C1 (amended): for every pair of connectable connection points with a
cardinal facing direction, `createDoorId` produces two distinct keys — one
per facing direction; a single shared door record arises only when both
elements reference the same `(position, direction)` pair, never for the two
opposite-facing sides of a doorway. -/
theorem c1_amended (cp1 cp2 : ConnectionPoint)
    (hconn : areConnectionPointsConnectable cp1 cp2 = true)
    (hcard : isCardinal cp1.direction = true) :
    createDoorId cp1.position cp1.direction ≠
      createDoorId cp2.position cp2.direction := by
  obtain ⟨hpos, hdir⟩ := connectable_spec hconn
  rw [← hpos, hdir]
  unfold createDoorId
  apply string_append_right_ne
  simp only [isCardinal, Bool.decide_or, Bool.or_eq_true, decide_eq_true_eq] at hcard
  rcases hcard with h | h | h | h <;> rw [h] <;> decide

/-- C1 (witness): the amended statement at the concrete doorway `(0,0)`
east/west. -/
theorem c1_witness :
    createDoorId c1cpA.position c1cpA.direction ≠
      createDoorId c1cpB.position c1cpB.direction :=
  c1_amended c1cpA c1cpB (by decide) (by decide)

/-! ## Claim C7 -/

/-- The threshold the source compares against: the exact value of
`ROOM_GENERATION_PROBABILITY * 10` (in IEEE doubles, `0.7 * 10` rounds to
exactly `7`, which the rational embedding reproduces). -/
theorem room_probability_times_ten : ROOM_GENERATION_PROBABILITY * 10 = 7 := by
  norm_num [ROOM_GENERATION_PROBABILITY]

/-- C7: `generateConnectedContent`'s room-vs-corridor choice is a pure
function of the seed: it attempts room generation exactly when
`seedToNumber seed % 10 < 7` — the threshold being
`ROOM_GENERATION_PROBABILITY * 10 = 0.7 * 10 = 7` — and attempts corridor
generation otherwise. -/
theorem c7_branch_choice (cat : Catalog) (st : GenState) (cp : ConnectionPoint)
    (seed : String) (srcId : String) (clock : Int) (suffix : String) :
    ROOM_GENERATION_PROBABILITY * 10 = 7 ∧
    generateConnectedContent cat st cp seed srcId clock suffix =
      (if ((seedToNumber seed % 10 : Int) : ℚ) < ROOM_GENERATION_PROBABILITY * 10 then
        generateConnectedRoom cat st cp seed clock suffix
      else
        generateConnectedCorridor st cp seed clock suffix) ∧
    generateConnectedContent cat st cp seed srcId clock suffix =
      (if seedToNumber seed % 10 < 7 then
        generateConnectedRoom cat st cp seed clock suffix
      else
        generateConnectedCorridor st cp seed clock suffix) := by
  have hiff : (((seedToNumber seed % 10 : Int) : ℚ) < ROOM_GENERATION_PROBABILITY * 10) ↔
      (seedToNumber seed % 10 < 7) := by
    rw [room_probability_times_ten]
    constructor <;> intro h <;> exact_mod_cast h
  refine ⟨room_probability_times_ten, ?_, ?_⟩
  · unfold generateConnectedContent
    simp only [hiff]
  · unfold generateConnectedContent
    rfl

/-! ## Claim C8 -/

/-- C8 (code bug): a corridor request whose straight path exits the grid on
its first extension step yields a one-cell path, and constructing the
corridor then *throws* — `getCorridorDirection(path[0], path[1])` reads
`.x` of `undefined` — instead of succeeding with a length-1 corridor.  The
exception is swallowed by `generateFromConnectionPoint`'s catch, so the
public call rolls back and commits no corridor at all. -/
theorem c8_code_bug :
    generateCorridorPath testSettings.gridSize [] cp8 5 = [⟨29, 5⟩] ∧
    generateConnectedCorridor (resetState testSettings) cp8 "a" 200 "xx" =
      .error jsUndefinedRead ∧
    (generateFromConnectionPoint catE 200 "cc" initState reqFail).toOption.map
      (fun r => (r.1.rooms.length, r.1.corridors.length)) = some (1, 0) :=
  ⟨by decide, by rfl, by decide⟩

/-! ## Claim C9 -/

/-- C9 (code bug): `validateConnectionPoints` tags surviving points with
their index in the *filtered* list, not their original template index: for a
template whose point 0 is filtered out, the surviving template point 1 is
returned carrying `index = 0`. -/
theorem c9_code_bug :
    validateConnectionPoints idxTemplate [[true, true]] [[true, true]] none =
      [{ direction := .north, position := ⟨1, 0⟩, index := some 0 }] ∧
    idxTemplate.connectionPoints[1]? =
      some { direction := .north, position := ⟨1, 0⟩, index := none } ∧
    idxTemplate.connectionPoints.length = 2 := by
  decide

/-! ## Claim C10 -/

/-- C10: for every expansion context, the expanded block set contains the
entry point — which is admitted unconditionally, before any bounds, mask or
occupancy check — and is therefore never empty, so
`generateConnectedRoom`'s `expandedBlocks.length === 0` fallback branch is
never taken. -/
theorem c10_entry_always_expanded (ctx : ExpansionContext) :
    ctx.entryPoint ∈ (expandRoom ctx).expandedBlocks ∧
    (expandRoom ctx).expandedBlocks ≠ [] ∧
    (expandRoom ctx).expandedBlocks.length ≠ 0 := by
  refine ⟨expandRoom_entry_mem ctx, ?_, ?_⟩
  · exact List.ne_nil_of_mem (expandRoom_entry_mem ctx)
  · simp only [ne_eq, List.length_eq_zero]
    exact List.ne_nil_of_mem (expandRoom_entry_mem ctx)

/-! ## Claim C3 -/

/-- C3 (counterexample): a reachable two-call sequence in which the second
corridor's first path cell lands inside the first corridor (the source skips
the occupancy check at `i = 0`), leaving two distinct placed corridors whose
occupied-cell sets both contain `(7,5)`. -/
theorem c3_counterexample :
    (generateInitialDungeon catE 0 100 testSettings).isOk = true ∧
    (generateFromConnectionPoint catE 200 "aa" initState
      ⟨cpReq1, "room-00", testSettings⟩).isOk = true ∧
    (generateFromConnectionPoint catE 300 "bb" c3mid
      ⟨cpReq2, "room-00", testSettings⟩).isOk = true ∧
    c3final.corridors.map (fun c => c.id) = ["corridor-200-aa", "corridor-300-bb"] ∧
    c3final.corridors.map (fun c => decide ((⟨7, 5⟩ : Position) ∈ c.path)) =
      [true, true] := by
  decide

/-- C3 (amended): occupied-cell sets of distinct placed elements are
disjoint *except possibly* at a corridor's first path cell and at an
expanded room's entry cell, where the source deliberately skips the
occupancy check: every corridor path cell after the first, and every
expanded block other than the entry point, is unoccupied in the grid
tracker at generation time (and in bounds). -/
theorem c3_amended :
    (∀ (gridSize : Int) (occupied : OccupiedSet) (cp : ConnectionPoint)
        (maxLength : Int),
      (∀ p ∈ (generateCorridorPath gridSize occupied cp maxLength).tail,
        isPositionOccupied occupied p = false) ∧
      (∀ p ∈ generateCorridorPath gridSize occupied cp maxLength,
        isWithinBounds gridSize p = true)) ∧
    (∀ (ctx : ExpansionContext), ∀ p ∈ (expandRoom ctx).expandedBlocks,
      p ≠ ctx.entryPoint →
        isPositionOccupied ctx.occupied p = false ∧
        isWithinBounds ctx.gridSize p = true) := by
  refine ⟨fun gridSize occupied cp maxLength =>
    ⟨generateCorridorPath_tail_unoccupied gridSize occupied cp maxLength,
     generateCorridorPath_bounds gridSize occupied cp maxLength⟩,
    fun ctx p hp hne => ?_⟩
  rcases expandRoom_blocks_char ctx p hp with h | h
  · exact absurd h hne
  · exact ⟨canExpandTo_not_occupied h, canExpandTo_bounds h⟩

/-- C3 (witness): the amended statement applied at concrete inputs — a
corridor path over an occupied set, and a block of a concrete expansion. -/
theorem c3_witness :
    isPositionOccupied [⟨3, 3⟩] (⟨7, 5⟩ : Position) = false ∧
    isWithinBounds 30 (⟨7, 5⟩ : Position) = true ∧
    isPositionOccupied ctxSmall.occupied ⟨5, 6⟩ = false :=
  ⟨(c3_amended.1 30 [⟨3, 3⟩] cpReq1 5).1 ⟨7, 5⟩ (by decide),
   (c3_amended.1 30 [⟨3, 3⟩] cpReq1 5).2 ⟨7, 5⟩ (by decide),
   ((c3_amended.2 ctxSmall ⟨5, 6⟩ (by decide) (by decide)).1)⟩

/-! ## Claim C6 (counterexample) -/

/-- C6 (counterexample): generating from a catalog whose standard template
declares an inward-facing door, the committed room carries a connection
point (east at `(11,0)`) whose adjacent cell `(12,0)` lies *inside* the
room's own effective `gridPattern`: block expansion passes template doors
through without checking them against the expanded shape. -/
theorem c6_counterexample :
    (generateFromConnectionPoint cat6 500 "dd" (resetState testSettings)
      ⟨cp6, "src", testSettings⟩).isOk = true ∧
    c6state.rooms.map (fun room => room.connectionPoints.map (fun c =>
      let adj := getAdjacentPosition c.position c.direction
      match room.gridPattern with
      | some pat => grid2get pat (adj.y - room.position.y) (adj.x - room.position.x)
      | none => false)) = [[false, true]] := by
  decide

/-! ## Claim C5 -/

theorem genAttempt_ok_map {cat : Catalog} {clock : Int} {suffix : String}
    {st : GenState} {request : GenerationRequest} {r : GenState × DungeonMap}
    (h : genAttempt cat clock suffix st request = .ok r) :
    r.2 = createDungeonMap r.1 clock := by
  simp only [genAttempt] at h
  split at h
  · cases h
  · split at h <;> (injection h with h2; rw [← h2])

theorem generateFromConnectionPoint_total (cat : Catalog) (clock : Int)
    (suffix : String) (st : GenState) (request : GenerationRequest) :
    ∃ r, generateFromConnectionPoint cat clock suffix st request = .ok r ∧
      r.2 = createDungeonMap r.1 clock := by
  unfold generateFromConnectionPoint
  cases hA : genAttempt cat clock suffix st request with
  | error e => exact ⟨_, rfl, rfl⟩
  | ok r => exact ⟨r, rfl, genAttempt_ok_map hA⟩

theorem generateFromConnectionPoint_ok_map {cat : Catalog} {clock : Int}
    {suffix : String} {st : GenState} {request : GenerationRequest}
    {r : GenState × DungeonMap}
    (h : generateFromConnectionPoint cat clock suffix st request = .ok r) :
    r.2 = createDungeonMap r.1 clock := by
  unfold generateFromConnectionPoint at h
  cases hA : genAttempt cat clock suffix st request with
  | error e =>
    rw [hA] at h
    injection h with h2
    rw [← h2]
  | ok r0 =>
    rw [hA] at h
    injection h with h2
    rw [← h2]
    exact genAttempt_ok_map hA

/-- C5: neither `generateFromConnectionPoint` nor `openDoor` lets an
exception escape: every exception raised during generation is caught inside
`generateFromConnectionPoint` (which rolls back and returns the map of the
rolled-back state), and both operations always return a `DungeonMap`
snapshot of the state they leave behind. -/
theorem c5_no_exception_escapes :
    (∀ (cat : Catalog) (clock : Int) (suffix : String) (st : GenState)
        (request : GenerationRequest),
      ∃ r, generateFromConnectionPoint cat clock suffix st request = .ok r ∧
        r.2 = createDungeonMap r.1 clock) ∧
    (∀ (cat : Catalog) (clock : Int) (suffix : String) (st : GenState)
        (doorId : String) (cp : ConnectionPoint) (srcId : String),
      ∃ r, openDoor cat clock suffix st doorId cp srcId = .ok r ∧
        r.2 = createDungeonMap r.1 clock) := by
  refine ⟨generateFromConnectionPoint_total, ?_⟩
  intro cat clock suffix st doorId cp srcId
  simp only [openDoor]
  split
  · exact ⟨_, rfl, rfl⟩
  · split
    · exact ⟨_, rfl, rfl⟩
    · split
      · split
        · next r hG => exact ⟨r, rfl, generateFromConnectionPoint_ok_map hG⟩
        · next e hG =>
          exfalso
          rcases generateFromConnectionPoint_total _ _ _ _ _ with ⟨r', hr', -⟩
          rw [hr'] at hG
          cases hG
      · exact ⟨_, rfl, rfl⟩

/-! ## Claim C4 -/

/-- The occupied set rebuilt from the authoritative lists: rooms first, then
corridors (the fold order of `rollbackToSnapshot`'s re-registration). -/
def occupiedOf (cat : Catalog) (rooms : List Room) (corridors : List Corridor) :
    OccupiedSet :=
  corridors.foldl markCorridorAsOccupied (rooms.foldl (markRoomAsOccupied cat) [])

/-- The grid tracker's derived-state consistency: its occupied set holds
exactly the cells of the current rooms and corridors. -/
def gridConsistent (cat : Catalog) (st : GenState) : Prop :=
  (∀ p ∈ st.gridOccupied, p ∈ occupiedOf cat st.rooms st.corridors) ∧
  (∀ p ∈ occupiedOf cat st.rooms st.corridors, p ∈ st.gridOccupied)

/-- Stability of the element lists under the rollback rebuild: re-registering
every element with a fresh Shared Wall Manager writes back exactly the
connection-point flags the elements already carry. -/
def rebuildStable (cat : Catalog) (clock : Int) (st : GenState) : Prop :=
  (rollbackToSnapshot cat clock st).rooms = st.rooms ∧
  (rollbackToSnapshot cat clock st).corridors = st.corridors

theorem foldl_genstate_misc {α : Type} (f : GenState → α → GenState)
    (hf : ∀ s a, (f s a).roomCounter = s.roomCounter ∧
      (f s a).exploration = s.exploration ∧ (f s a).settings = s.settings) :
    ∀ (l : List α) (s : GenState),
      (l.foldl f s).roomCounter = s.roomCounter ∧
      (l.foldl f s).exploration = s.exploration ∧
      (l.foldl f s).settings = s.settings := by
  intro l
  induction l with
  | nil => exact fun s => ⟨rfl, rfl, rfl⟩
  | cons a l ih =>
    intro s
    have h1 := hf s a
    have h2 := ih (f s a)
    exact ⟨h2.1.trans h1.1, h2.2.1.trans h1.2.1, h2.2.2.trans h1.2.2⟩

theorem foldl_genstate_grid {α : Type} (f : GenState → α → GenState)
    (g : OccupiedSet → α → OccupiedSet)
    (hf : ∀ s a, (f s a).gridOccupied = g s.gridOccupied a) :
    ∀ (l : List α) (s : GenState),
      (l.foldl f s).gridOccupied = l.foldl g s.gridOccupied := by
  intro l
  induction l with
  | nil => exact fun s => rfl
  | cons a l ih =>
    intro s
    rw [List.foldl_cons, List.foldl_cons, ih (f s a), hf s a]

theorem rollback_misc (cat : Catalog) (clock : Int) (st : GenState) :
    (rollbackToSnapshot cat clock st).roomCounter = st.roomCounter ∧
    (rollbackToSnapshot cat clock st).exploration = st.exploration := by
  unfold rollbackToSnapshot
  have h1 := foldl_genstate_misc (rollbackRoomStep cat clock)
    (fun s a => ⟨rfl, rfl, rfl⟩) st.rooms
    { st with gridOccupied := ([] : OccupiedSet), swm := swmReset }
  have h2 := foldl_genstate_misc (rollbackCorridorStep clock)
    (fun s a => ⟨rfl, rfl, rfl⟩) st.corridors
    (st.rooms.foldl (rollbackRoomStep cat clock)
      { st with gridOccupied := ([] : OccupiedSet), swm := swmReset })
  exact ⟨h2.1.trans h1.1, h2.2.1.trans h1.2.1⟩

theorem rollback_grid (cat : Catalog) (clock : Int) (st : GenState) :
    (rollbackToSnapshot cat clock st).gridOccupied =
      occupiedOf cat st.rooms st.corridors := by
  unfold rollbackToSnapshot occupiedOf
  have h1 := foldl_genstate_grid (rollbackRoomStep cat clock)
    (markRoomAsOccupied cat) (fun s a => rfl) st.rooms
    { st with gridOccupied := ([] : OccupiedSet), swm := swmReset }
  have h2 := foldl_genstate_grid (rollbackCorridorStep clock)
    markCorridorAsOccupied (fun s a => rfl) st.corridors
    (st.rooms.foldl (rollbackRoomStep cat clock)
      { st with gridOccupied := ([] : OccupiedSet), swm := swmReset })
  rw [h2, h1]

/-- C4 (amended): when the generate-and-integrate sequence fails, the
rollback restores `rooms`, `corridors`, `roomCounter` and `explorationState`
to their exact pre-call values and rebuilds the Grid Occupancy Tracker to
the same occupied set — provided the pre-call grid was consistent with the
element lists and the elements are stable under Shared-Wall re-registration
(both hold for states the generator itself produces).  The Shared Wall
Manager is rebuilt rather than restored and is *not* content-equal: its
doors' `generationSeed` timestamps are regenerated (see the
counterexample). -/
theorem c4_amended (cat : Catalog) (clock : Int) (suffix : String) (st : GenState)
    (request : GenerationRequest)
    (hfail : (genAttempt cat clock suffix st request).isOk = false)
    (hstable : rebuildStable cat clock st)
    (hgrid : gridConsistent cat st) :
    ∃ r, generateFromConnectionPoint cat clock suffix st request = .ok r ∧
      r.1.rooms = st.rooms ∧ r.1.corridors = st.corridors ∧
      r.1.roomCounter = st.roomCounter ∧ r.1.exploration = st.exploration ∧
      (∀ p, p ∈ r.1.gridOccupied ↔ p ∈ st.gridOccupied) := by
  unfold generateFromConnectionPoint
  cases hA : genAttempt cat clock suffix st request with
  | ok r => rw [hA] at hfail; cases hfail
  | error e =>
    refine ⟨_, rfl, hstable.1, hstable.2, (rollback_misc cat clock st).1,
      (rollback_misc cat clock st).2, ?_⟩
    intro p
    rw [rollback_grid]
    exact ⟨fun hp => hgrid.2 p hp, fun hp => hgrid.1 p hp⟩

/-- C4 (witness): the amended statement at the concrete post-initialisation
state with the corridor request that fails mid-generation. -/
theorem c4_witness :
    (genAttempt catE 200 "cc" initState reqFail).isOk = false ∧
    rebuildStable catE 200 initState ∧
    gridConsistent catE initState ∧
    ∃ r, generateFromConnectionPoint catE 200 "cc" initState reqFail = .ok r ∧
      r.1.rooms = initState.rooms ∧ r.1.corridors = initState.corridors ∧
      r.1.roomCounter = initState.roomCounter ∧
      r.1.exploration = initState.exploration ∧
      (∀ p, p ∈ r.1.gridOccupied ↔ p ∈ initState.gridOccupied) :=
  ⟨by decide, by unfold rebuildStable; decide, by unfold gridConsistent; decide,
   c4_amended catE 200 "cc" initState reqFail (by decide)
     (by unfold rebuildStable; decide) (by unfold gridConsistent; decide)⟩

/-- C4 (counterexample): after the failed call the Shared Wall Manager is
not content-equal to its pre-call state: the rebuilt registry's door seed
carries the rollback-time clock (`...-200`) instead of the original
registration clock (`...-100`). -/
theorem c4_counterexample :
    (genAttempt catE 200 "cc" initState reqFail).isOk = false ∧
    initState.swm.doors.map (fun d => d.generationSeed) = [some "12-13-north-100"] ∧
    (generateFromConnectionPoint catE 200 "cc" initState reqFail).toOption.map
      (fun r => r.1.swm.doors.map (fun d => d.generationSeed)) =
      some [some "12-13-north-200"] := by
  decide

/-! ## Claim C6 (amended) -/

theorem snd_mem_of_mem_enum {α : Type} {l : List α} {p : Nat × α} (h : p ∈ l.enum) :
    p.2 ∈ l := by
  have hmap := List.enum_map_snd l
  rw [← hmap]
  exact List.mem_map_of_mem Prod.snd h

/-- Every point returned by `validateConnectionPoints` is one of the
template's declared points (with only the `index` tag overridden). -/
theorem validate_mem_spec {template : RoomTemplate}
    {availableGrid trimmedPattern : List (List Bool)} {preserveIdx : Option Nat}
    {cp : TemplateConnectionPoint}
    (h : cp ∈ validateConnectionPoints template availableGrid trimmedPattern preserveIdx) :
    ∃ tcp ∈ template.connectionPoints,
      cp.position = tcp.position ∧ cp.direction = tcp.direction := by
  unfold validateConnectionPoints at h
  rw [List.mem_map] at h
  obtain ⟨q, hq, rfl⟩ := h
  have hq2 := snd_mem_of_mem_enum hq
  rw [List.mem_map] at hq2
  obtain ⟨r, hr, hr2⟩ := hq2
  have hr3 := snd_mem_of_mem_enum (List.mem_of_mem_filter hr)
  exact ⟨r.2, hr3, by rw [← hr2], by rw [← hr2]⟩

theorem adjacent_eq_vec (p : Position) (d : ExitDirection) (h : isCardinal d = true) :
    getAdjacentPosition p d =
      ⟨p.x + (directionToVector d).x, p.y + (directionToVector d).y⟩ := by
  simp only [isCardinal, Bool.decide_or, Bool.or_eq_true, decide_eq_true_eq] at h
  rcases h with h | h | h | h <;> subst h <;>
    exact Position.ext' (by simp only [getAdjacentPosition, directionToVector] <;> omega)
      (by simp only [getAdjacentPosition, directionToVector] <;> omega)

theorem adjacent_ne_self (p : Position) (d : ExitDirection) (h : isCardinal d = true) :
    getAdjacentPosition p d ≠ p := by
  simp only [isCardinal, Bool.decide_or, Bool.or_eq_true, decide_eq_true_eq] at h
  rcases h with h | h | h | h <;> subst h <;>
    (intro heq; have hy := congrArg Position.y heq; have hx := congrArg Position.x heq;
     simp only [getAdjacentPosition] at hy hx; omega)

theorem opposite_cardinal {d : ExitDirection} (h : isCardinal d = true) :
    isCardinal (getOppositeDirection d) = true := by
  simp only [isCardinal, Bool.decide_or, Bool.or_eq_true, decide_eq_true_eq] at h ⊢
  rcases h with h | h | h | h <;> subst h <;> simp [getOppositeDirection]

/-- Membership characterisation for the points built by
`generateConnectionPoints`: a point is the entry point's own (facing back at
the source) or sits at a perimeter cell with `shouldPlaceDoor` true for its
cardinal direction. -/
theorem generateConnectionPoints_mem_spec {ctx : ExpansionContext}
    {blocks : List Position} {cp : ConnectionPoint}
    (h : cp ∈ generateConnectionPoints ctx blocks) :
    (cp.position = ctx.entryPoint ∧
     cp.direction = getOppositeDirection ctx.sourceConnectionPoint.direction) ∨
    (isCardinal cp.direction = true ∧
     shouldPlaceDoor ctx cp.position cp.direction
       (getAdjacentPosition cp.position cp.direction) = true) := by
  unfold generateConnectionPoints at h
  rcases List.mem_cons.mp h with rfl | h
  · exact Or.inl ⟨rfl, rfl⟩
  · right
    rw [List.mem_flatten] at h
    obtain ⟨l, hl, hcp⟩ := h
    rw [List.mem_map] at hl
    obtain ⟨pp, _, rfl⟩ := hl
    split at hcp
    · simp at hcp
    · rw [List.mem_filterMap] at hcp
      obtain ⟨d, hd, hsome⟩ := hcp
      split at hsome
      · next hshould =>
        injection hsome with h2
        rw [← h2]
        refine ⟨?_, hshould⟩
        fin_cases hd <;> rfl
      · cases hsome

/-- Case analysis of a true `shouldPlaceDoor`: either an existing element has
a point at the adjacent cell, or the geomorph template declares a door at
the cell's template-relative position in that direction. -/
theorem shouldPlaceDoor_spec {ctx : ExpansionContext} {p a : Position}
    {d : ExitDirection} (h : shouldPlaceDoor ctx p d a = true) :
    (∃ e ∈ ctx.existingRooms.map Element.room ++
        ctx.existingCorridors.map Element.corridor,
      ∃ cp ∈ e.connectionPoints, cp.position.x = a.x ∧ cp.position.y = a.y) ∨
    (∃ tcp ∈ ctx.geomorphBounds.connectionPoints,
      tcp.position.x = p.x - ctx.targetPosition.x ∧
      tcp.position.y = p.y - ctx.targetPosition.y ∧ tcp.direction = d) := by
  simp only [shouldPlaceDoor] at h
  split at h
  · next hadj =>
    left
    simp only [List.any_eq_true, decide_eq_true_eq] at hadj
    obtain ⟨e, he, cpe, hcpe, hx, hy, _⟩ := hadj
    exact ⟨e, he, cpe, hcpe, hx, hy⟩
  · split at h
    · next htpl =>
      right
      simp only [List.any_eq_true, decide_eq_true_eq] at htpl
      obtain ⟨tcp, htcp, hx, hy, hd⟩ := htpl
      exact ⟨tcp, htcp, hx, hy, hd⟩
    · cases h

/-- C6 (amended): a connection point attached to a placed room refers only
to boundary cells of the room's effective pattern, *provided the template's
own declared doors face outward* (their adjacent cell lies outside the
template mask) — the property the counterexample shows the code does not
enforce by itself.  Part one: every point surviving
`validateConnectionPoints` (the template-trimming path, anchor point
included) has its adjacent cell outside the trimmed pattern.  Part two:
every point produced by `expandRoom` (the block-expansion path) has its
adjacent cell outside the expanded block set, additionally provided that
existing elements' points sit on occupied cells, the entry's back-cell is
occupied, the entry cell itself is unoccupied and inside the template mask,
and the source direction is cardinal — all true of the generator's own call
sites. -/
theorem c6_amended :
    (∀ (template : RoomTemplate) (availableGrid trimmedPattern : List (List Bool))
        (preserveIdx : Option Nat) (cp : TemplateConnectionPoint),
      cp ∈ validateConnectionPoints template availableGrid trimmedPattern preserveIdx →
      (∀ tcp ∈ template.connectionPoints,
        grid2get template.gridPattern
          (tcp.position.y + (directionToVector tcp.direction).y)
          (tcp.position.x + (directionToVector tcp.direction).x) = false) →
      (∀ y x : Int, grid2get trimmedPattern y x = true →
        grid2get template.gridPattern y x = true) →
      grid2get trimmedPattern
        (cp.position.y + (directionToVector cp.direction).y)
        (cp.position.x + (directionToVector cp.direction).x) = false) ∧
    (∀ ctx : ExpansionContext,
      isCardinal ctx.sourceConnectionPoint.direction = true →
      isPositionOccupied ctx.occupied (getAdjacentPosition ctx.entryPoint
        (getOppositeDirection ctx.sourceConnectionPoint.direction)) = true →
      (∀ e ∈ ctx.existingRooms.map Element.room ++
          ctx.existingCorridors.map Element.corridor,
        ∀ cp ∈ e.connectionPoints,
          isPositionOccupied ctx.occupied cp.position = true) →
      (∀ tcp ∈ ctx.geomorphBounds.connectionPoints, isCardinal tcp.direction = true →
        grid2get ctx.geomorphBounds.gridPattern
          (tcp.position.y + (directionToVector tcp.direction).y)
          (tcp.position.x + (directionToVector tcp.direction).x) = false) →
      isPositionOccupied ctx.occupied ctx.entryPoint = false →
      grid2get ctx.geomorphBounds.gridPattern
        (ctx.entryPoint.y - ctx.targetPosition.y)
        (ctx.entryPoint.x - ctx.targetPosition.x) = true →
      ∀ cp ∈ (expandRoom ctx).finalConnectionPoints,
        getAdjacentPosition cp.position cp.direction ∉
          (expandRoom ctx).expandedBlocks) := by
  constructor
  · intro template availableGrid trimmedPattern preserveIdx cp hmem houtward htrim
    obtain ⟨tcp, htcp, hpos, hdir⟩ := validate_mem_spec hmem
    rw [hpos, hdir]
    cases hb : grid2get trimmedPattern
        (tcp.position.y + (directionToVector tcp.direction).y)
        (tcp.position.x + (directionToVector tcp.direction).x) with
    | false => rfl
    | true => exact absurd (htrim _ _ hb) (by simp [houtward tcp htcp])
  · intro ctx hsrc hback hcps htpl hocc hmask cp hcp habs
    have hcp' : cp ∈ generateConnectionPoints ctx (expandRoom ctx).expandedBlocks := hcp
    rcases generateConnectionPoints_mem_spec hcp' with ⟨hpos, hdir⟩ | ⟨hcard, hshould⟩
    · rw [hpos, hdir] at habs
      rcases expandRoom_blocks_char ctx _ habs with heq | hcan
      · exact adjacent_ne_self _ _ (opposite_cardinal hsrc) heq
      · have hno := canExpandTo_not_occupied hcan
        rw [hno] at hback
        cases hback
    · rcases shouldPlaceDoor_spec hshould with
        ⟨e, he, cpe, hcpe, hx, hy⟩ | ⟨tcp, htcpmem, hrx, hry, hrd⟩
      · have hocc_a : isPositionOccupied ctx.occupied
            (getAdjacentPosition cp.position cp.direction) = true := by
          have h1 := hcps e he cpe hcpe
          rwa [Position.ext' hx hy] at h1
        rcases expandRoom_blocks_char ctx _ habs with heq | hcan
        · rw [heq, hocc] at hocc_a
          cases hocc_a
        · rw [canExpandTo_not_occupied hcan] at hocc_a
          cases hocc_a
      · have houtw := htpl tcp htcpmem (by rw [hrd]; exact hcard)
        have ha := adjacent_eq_vec cp.position cp.direction hcard
        have hvec : directionToVector tcp.direction = directionToVector cp.direction := by
          rw [hrd]
        rcases expandRoom_blocks_char ctx _ habs with heq | hcan
        · have hay : (getAdjacentPosition cp.position cp.direction).y =
              ctx.entryPoint.y := congrArg Position.y heq
          have hax : (getAdjacentPosition cp.position cp.direction).x =
              ctx.entryPoint.x := congrArg Position.x heq
          rw [ha] at hay hax
          simp only at hay hax
          have hidx : grid2get ctx.geomorphBounds.gridPattern
              (tcp.position.y + (directionToVector tcp.direction).y)
              (tcp.position.x + (directionToVector tcp.direction).x) =
            grid2get ctx.geomorphBounds.gridPattern
              (ctx.entryPoint.y - ctx.targetPosition.y)
              (ctx.entryPoint.x - ctx.targetPosition.x) := by
            rw [hvec]
            congr 1 <;> omega
          rw [hidx, hmask] at houtw
          cases houtw
        · have hm := canExpandTo_mask hcan
          rw [ha] at hm
          simp only at hm
          have hidx : grid2get ctx.geomorphBounds.gridPattern
              (tcp.position.y + (directionToVector tcp.direction).y)
              (tcp.position.x + (directionToVector tcp.direction).x) =
            grid2get ctx.geomorphBounds.gridPattern
              (cp.position.y + (directionToVector cp.direction).y - ctx.targetPosition.y)
              (cp.position.x + (directionToVector cp.direction).x - ctx.targetPosition.x) := by
            rw [hvec]
            congr 1 <;> omega
          rw [hidx, hm] at houtw
          cases houtw

/-- C6 (witness): the amended statement at concrete inputs — the outward
template's surviving trimmed point and the entry point of a concrete
expansion. -/
theorem c6_witness :
    grid2get [[true], [true]] 2 0 = false ∧
    getAdjacentPosition (⟨5, 5⟩ : Position) .north ∉
      (expandRoom ctxSmall).expandedBlocks :=
  ⟨c6_amended.1 outwardTemplate [[true], [true]] [[true], [true]] none
      ⟨.south, ⟨0, 1⟩, some 0⟩ (by decide) (by decide) (fun y x h => h),
   c6_amended.2 ctxSmall (by decide) (by decide) (by decide) (by decide)
      (by decide) (by decide)
      { direction := .north, position := ⟨5, 5⟩, isConnected := true,
        connectedElementId := some "src", isGenerated := true,
        generationSeed := none, state := .connected } (by decide)⟩

/-! ## C2: auto-opening of shared doors (`SharedWallManager.addElement`)

The development below characterises the three phases of `addElement`
(`connectElementToExistingDoors`, the registration loop, and
`autoOpenRevealedDoors`) and proves that states reachable through
`addElement` keep every door that is shared by two or more elements open,
with both sides' connection points flagged. -/

/-- The registry key under which a door is stored (its `location.globalId`). -/
def doorKey (d : SharedDoor) : String := d.location.globalId

/-- The registry key a connection point's location resolves to. -/
def cpKey (cp : ConnectionPoint) : String := createDoorId cp.position cp.direction

/-- A connection point sits exactly on a door's wall location. -/
def CpAt (cp : ConnectionPoint) (loc : DoorLocation) : Prop :=
  cp.position = loc.position ∧ cp.direction = loc.direction

instance (cp : ConnectionPoint) (loc : DoorLocation) : Decidable (CpAt cp loc) := by
  unfold CpAt; infer_instance

/-- Side conditions under which the generator invokes `addElement`: the
element's id is new, and door-key strings do not collide across distinct wall
locations (clauses 2 and 3 hold of `createDoorId`, which embeds the
coordinates and the direction verbatim in the key; they are carried as
explicit decidable hypotheses rather than via a string-injectivity proof). -/
def FreshElement (S : SWMState) (e : Element) : Prop :=
  (∀ e' ∈ S.elements, e'.id ≠ e.id) ∧
  (∀ cp ∈ e.connectionPoints, ∀ d ∈ S.doors,
    doorKey d = cpKey cp → CpAt cp d.location) ∧
  (∀ cp ∈ e.connectionPoints, ∀ cp' ∈ e.connectionPoints,
    cpKey cp = cpKey cp' → cp.position = cp'.position ∧ cp.direction = cp'.direction)

instance (S : SWMState) (e : Element) : Decidable (FreshElement S e) := by
  unfold FreshElement; infer_instance

/-- Structural well-formedness of a `SharedWallManager` state: door ids refer
to stored elements; element ids are unique; every connection point of every
element has a door registered under the point's key, carrying the element's id
and located exactly at the point; every door is stored under the key derived
from its own location; keys are unique. -/
def StructInv (S : SWMState) : Prop :=
  (∀ d ∈ S.doors, ∀ i ∈ d.connectedElements, ∃ e ∈ S.elements, e.id = i) ∧
  (S.elements.map Element.id).Nodup ∧
  (∀ e ∈ S.elements, ∀ cp ∈ e.connectionPoints, ∃ d ∈ S.doors,
    doorKey d = cpKey cp ∧ e.id ∈ d.connectedElements ∧ CpAt cp d.location) ∧
  (∀ d ∈ S.doors, doorKey d = createDoorId d.location.position d.location.direction) ∧
  (S.doors.map doorKey).Nodup

/-- Every open door is marked generated, with both flags set on every
connection point lying on it. -/
def OpenFlags (S : SWMState) : Prop :=
  ∀ d ∈ S.doors, d.state = .open →
    d.isGenerated = true ∧
    ∀ e ∈ S.elements, ∀ cp ∈ e.connectionPoints, CpAt cp d.location →
      cp.isGenerated = true ∧ cp.isConnected = true

/-- Every door shared by at least two elements is open. -/
def SharedDoorsOpen (S : SWMState) : Prop :=
  ∀ d ∈ S.doors, 2 ≤ d.connectedElements.length → d.state = .open

/-- The invariant maintained by `addElement`. -/
def SWMInv (S : SWMState) : Prop := StructInv S ∧ OpenFlags S ∧ SharedDoorsOpen S

/-- States a `SharedWallManager` reaches from `reset` through `addElement`
calls on fresh elements. -/
inductive ReachableSWM : SWMState → Prop where
  | base : ReachableSWM swmReset
  | step {S : SWMState} {e : Element} (clock : Int) :
      ReachableSWM S → FreshElement S e → ReachableSWM (addElement clock S e).1

/-! ### Generic list lemmas -/

theorem forall₂_exists_right {α β : Type} {r : α → β → Prop} {l : List α} {l' : List β}
    (h : List.Forall₂ r l l') : ∀ a ∈ l, ∃ b ∈ l', r a b := by
  induction h with
  | nil => intro a ha; cases ha
  | @cons a' b' l₁ l₂ hr _h ih =>
    intro a ha
    rcases List.mem_cons.mp ha with rfl | ha
    · exact ⟨b', List.mem_cons_self b' l₂, hr⟩
    · rcases ih a ha with ⟨b, hb, hrb⟩
      exact ⟨b, List.mem_cons_of_mem _ hb, hrb⟩

theorem forall₂_exists_left {α β : Type} {r : α → β → Prop} {l : List α} {l' : List β}
    (h : List.Forall₂ r l l') : ∀ b ∈ l', ∃ a ∈ l, r a b := by
  induction h with
  | nil => intro b hb; cases hb
  | @cons a' b' l₁ l₂ hr _h ih =>
    intro b hb
    rcases List.mem_cons.mp hb with rfl | hb
    · exact ⟨a', List.mem_cons_self a' l₁, hr⟩
    · rcases ih b hb with ⟨a, ha, hra⟩
      exact ⟨a, List.mem_cons_of_mem _ ha, hra⟩

theorem forall₂_trans_of {α : Type} {r : α → α → Prop}
    (ht : ∀ a b c, r a b → r b c → r a c) {l₁ l₂ l₃ : List α}
    (h₁ : List.Forall₂ r l₁ l₂) (h₂ : List.Forall₂ r l₂ l₃) : List.Forall₂ r l₁ l₃ := by
  induction h₁ generalizing l₃ with
  | nil => cases h₂; exact .nil
  | cons hr _h ih =>
    cases h₂ with
    | cons hr₂ ht₂ => exact .cons (ht _ _ _ hr hr₂) (ih ht₂)

theorem map_eq_of_forall₂ {α β : Type} {r : α → α → Prop} {f : α → β}
    (hf : ∀ a b, r a b → f b = f a) {l l' : List α}
    (h : List.Forall₂ r l l') : l'.map f = l.map f := by
  induction h with
  | nil => rfl
  | cons hr _h ih => simp [List.map_cons, hf _ _ hr, ih]

theorem two_le_length_of_mem_ne {α : Type} {l : List α} {a b : α}
    (ha : a ∈ l) (hb : b ∈ l) (hne : a ≠ b) : 2 ≤ l.length := by
  cases l with
  | nil => cases ha
  | cons x t =>
    cases t with
    | nil =>
      have h1 := List.mem_singleton.mp ha
      have h2 := List.mem_singleton.mp hb
      exact absurd (h1.trans h2.symm) hne
    | cons y t' => simp only [List.length_cons]; omega

/-! ### Door lookup under unique keys -/

theorem getDoor_mem {doors : Doors} {k : String} {d : SharedDoor}
    (h : getDoor doors k = some d) : d ∈ doors ∧ doorKey d = k := by
  refine ⟨List.mem_of_find?_eq_some h, ?_⟩
  have := List.find?_some h
  simpa [doorKey] using this

theorem getDoor_none {doors : Doors} {k : String} (h : getDoor doors k = none) :
    ∀ d ∈ doors, doorKey d ≠ k := by
  intro d hd
  have := List.find?_eq_none.mp h d hd
  simpa [doorKey] using this

theorem getDoor_eq_some_of_nodup {doors : Doors} {d : SharedDoor} {k : String}
    (hnodup : (doors.map doorKey).Nodup) (hd : d ∈ doors) (hk : doorKey d = k) :
    getDoor doors k = some d := by
  induction doors with
  | nil => cases hd
  | cons d0 rest ih =>
    have hsplit := List.nodup_cons.mp (show (doorKey d0 :: rest.map doorKey).Nodup by
      simpa using hnodup)
    by_cases h0 : d0.location.globalId = k
    · have hd0 : d = d0 := by
        rcases List.mem_cons.mp hd with heq | hd'
        · exact heq
        · exfalso
          have hmem : doorKey d ∈ rest.map doorKey := List.mem_map_of_mem doorKey hd'
          rw [hk, ← h0] at hmem
          exact hsplit.1 hmem
      subst hd0
      simp [getDoor, List.find?_cons, h0]
    · have hd' : d ∈ rest := by
        rcases List.mem_cons.mp hd with heq | hd'
        · exact absurd (heq ▸ hk) h0
        · exact hd'
      have hrec := ih hsplit.2 hd'
      simp only [getDoor] at hrec ⊢
      simp [List.find?_cons, h0, hrec]

theorem mem_setDoor {doors : Doors} {k : String} {f : SharedDoor → SharedDoor}
    {d' : SharedDoor} (h : d' ∈ setDoor doors k f) :
    ∃ d ∈ doors, (doorKey d = k ∧ d' = f d) ∨ (doorKey d ≠ k ∧ d' = d) := by
  rcases List.mem_map.mp h with ⟨d, hd, hmap⟩
  refine ⟨d, hd, ?_⟩
  by_cases hk : d.location.globalId = k
  · exact .inl ⟨hk, by rw [← hmap]; simp [hk]⟩
  · exact .inr ⟨hk, by rw [← hmap]; simp [hk]⟩

/-! ### The connect phase -/

/-- How `connectElementToExistingDoors` may change one stored door: every
invariant-relevant field is preserved, except that the connecting element's
id may be appended once to `connectedElements`. -/
def DoorExt (i : String) (d d' : SharedDoor) : Prop :=
  d'.location = d.location ∧ d'.state = d.state ∧ d'.isGenerated = d.isGenerated ∧
  (d'.connectedElements = d.connectedElements ∨
    (i ∉ d.connectedElements ∧ d'.connectedElements = d.connectedElements ++ [i]))

theorem doorExt_refl (i : String) (d : SharedDoor) : DoorExt i d d :=
  ⟨rfl, rfl, rfl, .inl rfl⟩

theorem doorExt_trans {i : String} {d₁ d₂ d₃ : SharedDoor}
    (h₁ : DoorExt i d₁ d₂) (h₂ : DoorExt i d₂ d₃) : DoorExt i d₁ d₃ := by
  obtain ⟨l₁, s₁, g₁, c₁⟩ := h₁
  obtain ⟨l₂, s₂, g₂, c₂⟩ := h₂
  refine ⟨l₂.trans l₁, s₂.trans s₁, g₂.trans g₁, ?_⟩
  rcases c₁ with c₁ | ⟨hn₁, c₁⟩ <;> rcases c₂ with c₂ | ⟨hn₂, c₂⟩
  · exact .inl (c₂.trans c₁)
  · exact .inr ⟨by rwa [c₁] at hn₂, by rw [c₂, c₁]⟩
  · exact .inr ⟨hn₁, by rw [c₂, c₁]⟩
  · exfalso
    exact hn₂ (c₁ ▸ List.mem_append_right _ (List.mem_singleton.mpr rfl))

theorem doorExt_key {i : String} {d d' : SharedDoor} (h : DoorExt i d d') :
    doorKey d' = doorKey d := by
  show d'.location.globalId = d.location.globalId
  rw [h.1]

theorem doorExt_ces_sub {i : String} {d d' : SharedDoor} (h : DoorExt i d d') :
    d.connectedElements ⊆ d'.connectedElements := by
  rcases h.2.2.2 with hc | ⟨_, hc⟩
  · rw [hc]; exact List.Subset.refl _
  · rw [hc]; exact List.subset_append_left _ _

theorem doorExt_ces_cases {i : String} {d d' : SharedDoor} (h : DoorExt i d d')
    {x : String} (hx : x ∈ d'.connectedElements) :
    x ∈ d.connectedElements ∨ x = i := by
  rcases h.2.2.2 with hc | ⟨_, hc⟩
  · exact .inl (hc ▸ hx)
  · rcases List.mem_append.mp (hc ▸ hx) with h' | h'
    · exact .inl h'
    · exact .inr (List.mem_singleton.mp h')

theorem forall₂_doorExt_trans {i : String} {l₁ l₂ l₃ : Doors}
    (h₁ : List.Forall₂ (DoorExt i) l₁ l₂) (h₂ : List.Forall₂ (DoorExt i) l₂ l₃) :
    List.Forall₂ (DoorExt i) l₁ l₃ :=
  @forall₂_trans_of _ (DoorExt i) (fun _ _ _ a b => doorExt_trans a b) _ _ _ h₁ h₂

theorem connectOnePoint_doors (i : String) (doors : Doors) (cp : ConnectionPoint)
    (hnodup : (doors.map doorKey).Nodup) :
    List.Forall₂ (DoorExt i) doors (connectOnePoint i doors cp).1 := by
  cases hfind : getDoorByLocation doors cp.position cp.direction with
  | none =>
    simp only [connectOnePoint, hfind]
    exact List.forall₂_same.mpr fun d _ => doorExt_refl i d
  | some d0 =>
    have hd0 : d0 ∈ doors := by
      rw [getDoorByLocation] at hfind
      exact (getDoor_mem hfind).1
    simp only [connectOnePoint, hfind]
    rw [setDoor]
    refine List.forall₂_map_right_iff.mpr (List.forall₂_same.mpr ?_)
    intro d hd
    by_cases hkey : d.location.globalId = d0.location.globalId
    · have hdd0 : d = d0 :=
        List.inj_on_of_nodup_map hnodup hd hd0 (show doorKey d = doorKey d0 from hkey)
      subst hdd0
      rw [if_pos hkey]
      by_cases hin : i ∈ d.connectedElements
      · rw [if_pos hin]
        exact ⟨rfl, rfl, rfl, .inl rfl⟩
      · rw [if_neg hin]
        exact ⟨rfl, rfl, rfl, .inr ⟨hin, rfl⟩⟩
    · rw [if_neg hkey]
      exact doorExt_refl i d

theorem connect_doors (i : String) (cps : List ConnectionPoint) :
    ∀ (doors : Doors), (doors.map doorKey).Nodup →
    List.Forall₂ (DoorExt i) doors (connectElementToExistingDoors doors i cps).1 := by
  induction cps with
  | nil =>
    intro doors _
    simp only [connectElementToExistingDoors]
    exact List.forall₂_same.mpr fun d _ => doorExt_refl i d
  | cons cp0 rest ih =>
    intro doors hnodup
    simp only [connectElementToExistingDoors]
    have h₁ := connectOnePoint_doors i doors cp0 hnodup
    have hnodup₁ : (((connectOnePoint i doors cp0).1).map doorKey).Nodup := by
      rw [map_eq_of_forall₂ (fun a b h => doorExt_key h) h₁]; exact hnodup
    exact forall₂_doorExt_trans h₁ (ih _ hnodup₁)

theorem connect_mono {i : String} {doors : Doors} {cps : List ConnectionPoint}
    (hnodup : (doors.map doorKey).Nodup) {k x : String}
    (h : ∃ d ∈ doors, doorKey d = k ∧ x ∈ d.connectedElements) :
    ∃ d' ∈ (connectElementToExistingDoors doors i cps).1,
      doorKey d' = k ∧ x ∈ d'.connectedElements := by
  rcases h with ⟨d, hd, hk, hx⟩
  rcases forall₂_exists_right (connect_doors i cps doors hnodup) d hd with ⟨d', hd', hext⟩
  exact ⟨d', hd', by rw [doorExt_key hext, hk], doorExt_ces_sub hext hx⟩

theorem connectOnePoint_attach {i : String} {doors : Doors} {cp : ConnectionPoint}
    (hnodup : (doors.map doorKey).Nodup) (hex : ∃ d ∈ doors, doorKey d = cpKey cp) :
    ∃ d₁ ∈ (connectOnePoint i doors cp).1,
      doorKey d₁ = cpKey cp ∧ i ∈ d₁.connectedElements := by
  rcases hex with ⟨d, hd, hk⟩
  have hfind : getDoorByLocation doors cp.position cp.direction = some d := by
    rw [getDoorByLocation]
    exact getDoor_eq_some_of_nodup hnodup hd (by simpa [cpKey] using hk)
  simp only [connectOnePoint, hfind]
  refine ⟨{d with connectedElements :=
      if i ∈ d.connectedElements then d.connectedElements
      else d.connectedElements ++ [i]}, ?_, ?_, ?_⟩
  · rw [setDoor]
    exact List.mem_map.mpr ⟨d, hd, by rw [if_pos rfl]⟩
  · exact hk
  · by_cases hin : i ∈ d.connectedElements
    · simp [hin]
    · simp [hin]

theorem connect_attach (i : String) (cps : List ConnectionPoint) :
    ∀ (doors : Doors), (doors.map doorKey).Nodup →
    ∀ cp ∈ cps, (∃ d ∈ doors, doorKey d = cpKey cp) →
    ∃ d' ∈ (connectElementToExistingDoors doors i cps).1,
      doorKey d' = cpKey cp ∧ i ∈ d'.connectedElements := by
  induction cps with
  | nil => intro doors _ cp hcp; cases hcp
  | cons cp0 rest ih =>
    intro doors hnodup cp hcp hex
    have h₁ := connectOnePoint_doors i doors cp0 hnodup
    have hnodup₁ : (((connectOnePoint i doors cp0).1).map doorKey).Nodup := by
      rw [map_eq_of_forall₂ (fun a b h => doorExt_key h) h₁]; exact hnodup
    simp only [connectElementToExistingDoors]
    rcases List.mem_cons.mp hcp with heq | hcp'
    · subst heq
      exact connect_mono hnodup₁ (connectOnePoint_attach hnodup hex)
    · rcases hex with ⟨d, hd, hk⟩
      rcases forall₂_exists_right h₁ d hd with ⟨d₁, hd₁, hext⟩
      exact ih _ hnodup₁ cp hcp' ⟨d₁, hd₁, by rw [doorExt_key hext, hk]⟩

/-- How `connectElementToExistingDoors` rewrites the element's own connection
points, expressed against the pre-call registry: positions and directions are
kept; a point whose key has no door is returned unchanged; a point whose key
has a door comes back flagged `isConnected` with the door's `isGenerated`
copied. -/
def CpConn (doors : Doors) (cp cp' : ConnectionPoint) : Prop :=
  cp'.position = cp.position ∧ cp'.direction = cp.direction ∧
  ((∀ d ∈ doors, doorKey d ≠ cpKey cp) → cp' = cp) ∧
  (∀ d ∈ doors, doorKey d = cpKey cp →
    cp'.isConnected = true ∧ cp'.isGenerated = d.isGenerated)

theorem connect_cps (i : String) (cps : List ConnectionPoint) :
    ∀ (doors doors₀ : Doors), (doors₀.map doorKey).Nodup →
    List.Forall₂ (DoorExt i) doors₀ doors →
    List.Forall₂ (CpConn doors₀) cps (connectElementToExistingDoors doors i cps).2 := by
  induction cps with
  | nil =>
    intro doors doors₀ _ _
    simp only [connectElementToExistingDoors]
    exact .nil
  | cons cp0 rest ih =>
    intro doors doors₀ hnodup₀ hext
    have hnodup : (doors.map doorKey).Nodup := by
      rw [map_eq_of_forall₂ (fun a b h => doorExt_key h) hext]; exact hnodup₀
    simp only [connectElementToExistingDoors]
    refine List.Forall₂.cons ?_ ?_
    · cases hfind : getDoorByLocation doors cp0.position cp0.direction with
      | none =>
        simp only [connectOnePoint, hfind]
        refine ⟨rfl, rfl, fun _ => rfl, ?_⟩
        intro d hd hk
        exfalso
        rcases forall₂_exists_right hext d hd with ⟨d', hd', hextd⟩
        have h2 := getDoor_eq_some_of_nodup hnodup hd' (by rw [doorExt_key hextd, hk])
        simp only [cpKey] at h2
        rw [getDoorByLocation] at hfind
        rw [hfind] at h2
        exact Option.noConfusion h2
      | some d0 =>
        have hd0 : d0 ∈ doors ∧ doorKey d0 = cpKey cp0 := by
          rw [getDoorByLocation] at hfind
          have := getDoor_mem hfind
          simpa [cpKey] using this
        simp only [connectOnePoint, hfind]
        refine ⟨rfl, rfl, ?_, ?_⟩
        · intro hnone
          exfalso
          rcases forall₂_exists_left hext d0 hd0.1 with ⟨dd, hdm, hextd⟩
          exact hnone dd hdm (by rw [← doorExt_key hextd]; exact hd0.2)
        · intro d hd hk
          refine ⟨rfl, ?_⟩
          rcases forall₂_exists_right hext d hd with ⟨d', hd', hextd⟩
          have hdd0 : d' = d0 :=
            List.inj_on_of_nodup_map hnodup hd' hd0.1
              (by rw [doorExt_key hextd, hk, ← hd0.2])
          subst hdd0
          exact hextd.2.2.1
    · have h₁ := connectOnePoint_doors i doors cp0 hnodup
      exact ih _ doors₀ hnodup₀ (forall₂_doorExt_trans hext h₁)

theorem connect_cps_orig (i : String) (cps : List ConnectionPoint) (doors : Doors)
    (hnodup : (doors.map doorKey).Nodup) :
    List.Forall₂ (CpConn doors) cps (connectElementToExistingDoors doors i cps).2 :=
  connect_cps i cps doors doors hnodup (List.forall₂_same.mpr fun d _ => doorExt_refl i d)

/-! ### The registration phase -/

/-- The record `registerDoor` appends for a connection point with no existing
door (as invoked by the registration loop of `addElement`). -/
def freshDoor (clock : Int) (i : String) (cp : ConnectionPoint) : SharedDoor :=
  { location := { position := cp.position, direction := cp.direction,
                  globalId := createDoorId cp.position cp.direction },
    state := .closed, connectedElements := [i], isGenerated := false,
    connectedElementId := none, generationSeed := some (generateSeed cp clock) }

theorem freshDoor_key (clock : Int) (i : String) (cp : ConnectionPoint) :
    doorKey (freshDoor clock i cp) = cpKey cp := rfl

theorem registerDoor_none_eq {doors : Doors} {cp : ConnectionPoint} {clock : Int}
    {i : String}
    (hnone : getDoor doors (createDoorId cp.position cp.direction) = none) :
    (registerDoor doors cp.position cp.direction i .closed
      (some (generateSeed cp clock))).1 = doors ++ [freshDoor clock i cp] := by
  simp only [registerDoor, hnone, freshDoor]

theorem registerNewDoors_cons_some {clock : Int} {i : String} {doors : Doors}
    {cp : ConnectionPoint} {rest : List ConnectionPoint} {d0 : SharedDoor}
    (hfind : getDoorByLocation doors cp.position cp.direction = some d0) :
    registerNewDoors clock i doors (cp :: rest) = registerNewDoors clock i doors rest := by
  simp only [registerNewDoors, hfind]

theorem registerNewDoors_cons_none {clock : Int} {i : String} {doors : Doors}
    {cp : ConnectionPoint} {rest : List ConnectionPoint}
    (hfind : getDoorByLocation doors cp.position cp.direction = none) :
    registerNewDoors clock i doors (cp :: rest) =
      registerNewDoors clock i (doors ++ [freshDoor clock i cp]) rest := by
  have hnone : getDoor doors (createDoorId cp.position cp.direction) = none := by
    rw [getDoorByLocation] at hfind; exact hfind
  simp only [registerNewDoors, hfind, registerDoor_none_eq hnone]

theorem keys_append_fresh {doors : Doors} (clock : Int) (i : String)
    {cp : ConnectionPoint} (hnodup : (doors.map doorKey).Nodup)
    (hfind : getDoorByLocation doors cp.position cp.direction = none) :
    ((doors ++ [freshDoor clock i cp]).map doorKey).Nodup := by
  have hnone : getDoor doors (createDoorId cp.position cp.direction) = none := by
    rw [getDoorByLocation] at hfind; exact hfind
  rw [List.map_append]
  refine List.Nodup.append hnodup (by simp) ?_
  intro k hk1 hk2
  rcases List.mem_map.mp hk1 with ⟨d, hd, rfl⟩
  have hne := getDoor_none hnone d hd
  simp only [List.map_cons, List.map_nil, List.mem_singleton, freshDoor_key] at hk2
  simp only [cpKey] at hk2
  exact hne hk2

/-- Shape of a door appended by the registration loop. -/
def NewDoorFor (i : String) (cps : List ConnectionPoint) (d : SharedDoor) : Prop :=
  d.state = .closed ∧ d.connectedElements = [i] ∧ d.isGenerated = false ∧
  doorKey d = createDoorId d.location.position d.location.direction ∧
  ∃ cp ∈ cps, CpAt cp d.location

theorem register_append (clock : Int) (i : String) (cps : List ConnectionPoint) :
    ∀ doors : Doors, ∃ news : Doors,
      registerNewDoors clock i doors cps = doors ++ news ∧
      ∀ d ∈ news, NewDoorFor i cps d := by
  induction cps with
  | nil =>
    intro doors
    exact ⟨[], by simp [registerNewDoors], fun d hd => absurd hd (List.not_mem_nil d)⟩
  | cons cp0 rest ih =>
    intro doors
    cases hfind : getDoorByLocation doors cp0.position cp0.direction with
    | some d0 =>
      rcases ih doors with ⟨news, h1, h2⟩
      refine ⟨news, by rw [registerNewDoors_cons_some hfind]; exact h1, ?_⟩
      intro d hd
      rcases h2 d hd with ⟨hs, hc, hg, hk, cp', hcp', hat⟩
      exact ⟨hs, hc, hg, hk, cp', List.mem_cons_of_mem _ hcp', hat⟩
    | none =>
      rcases ih (doors ++ [freshDoor clock i cp0]) with ⟨news, h1, h2⟩
      refine ⟨freshDoor clock i cp0 :: news, ?_, ?_⟩
      · rw [registerNewDoors_cons_none hfind, h1, List.append_assoc]
        rfl
      · intro d hd
        rcases List.mem_cons.mp hd with heq | hd'
        · subst heq
          exact ⟨rfl, rfl, rfl, rfl, cp0, List.mem_cons_self cp0 rest, rfl, rfl⟩
        · rcases h2 d hd' with ⟨hs, hc, hg, hk, cp', hcp', hat⟩
          exact ⟨hs, hc, hg, hk, cp', List.mem_cons_of_mem _ hcp', hat⟩

theorem register_keys_nodup (clock : Int) (i : String) (cps : List ConnectionPoint) :
    ∀ doors : Doors, (doors.map doorKey).Nodup →
    ((registerNewDoors clock i doors cps).map doorKey).Nodup := by
  induction cps with
  | nil => intro doors h; simpa [registerNewDoors] using h
  | cons cp0 rest ih =>
    intro doors hnodup
    cases hfind : getDoorByLocation doors cp0.position cp0.direction with
    | some d0 =>
      rw [registerNewDoors_cons_some hfind]
      exact ih doors hnodup
    | none =>
      rw [registerNewDoors_cons_none hfind]
      exact ih _ (keys_append_fresh clock i hnodup hfind)

theorem register_attach (clock : Int) (i : String) (cps : List ConnectionPoint) :
    ∀ doors : Doors, (doors.map doorKey).Nodup →
    (∀ cp ∈ cps, (∃ d ∈ doors, doorKey d = cpKey cp ∧ i ∈ d.connectedElements) ∨
      (∀ d ∈ doors, doorKey d ≠ cpKey cp)) →
    ∀ cp ∈ cps, ∃ d ∈ registerNewDoors clock i doors cps,
      doorKey d = cpKey cp ∧ i ∈ d.connectedElements := by
  induction cps with
  | nil => intro doors _ _ cp hcp; cases hcp
  | cons cp0 rest ih =>
    intro doors hnodup hcon cp hcp
    cases hfind : getDoorByLocation doors cp0.position cp0.direction with
    | some d0 =>
      rw [registerNewDoors_cons_some hfind]
      rcases List.mem_cons.mp hcp with heq | hcp'
      · subst heq
        rcases hcon cp (List.mem_cons_self cp rest) with ⟨d, hd, hk, hi⟩ | hno
        · rcases register_append clock i rest doors with ⟨news, happ, _⟩
          exact ⟨d, by rw [happ]; exact List.mem_append_left _ hd, hk, hi⟩
        · exfalso
          rw [getDoorByLocation] at hfind
          rcases getDoor_mem hfind with ⟨hd0, hk0⟩
          exact hno d0 hd0 (by simpa [cpKey] using hk0)
      · exact ih doors hnodup (fun c hc => hcon c (List.mem_cons_of_mem _ hc)) cp hcp'
    | none =>
      rw [registerNewDoors_cons_none hfind]
      have hnodup' := keys_append_fresh clock i hnodup hfind
      have hcon' : ∀ c ∈ rest,
          (∃ d ∈ doors ++ [freshDoor clock i cp0],
            doorKey d = cpKey c ∧ i ∈ d.connectedElements) ∨
          (∀ d ∈ doors ++ [freshDoor clock i cp0], doorKey d ≠ cpKey c) := by
        intro c hc
        rcases hcon c (List.mem_cons_of_mem _ hc) with ⟨d, hd, hk, hi⟩ | hno
        · exact .inl ⟨d, List.mem_append_left _ hd, hk, hi⟩
        · by_cases hkey : cpKey cp0 = cpKey c
          · refine .inl ⟨freshDoor clock i cp0,
              List.mem_append_right _ (List.mem_singleton.mpr rfl), ?_, ?_⟩
            · rw [freshDoor_key]; exact hkey
            · exact List.mem_singleton.mpr rfl
          · refine .inr ?_
            intro d hd
            rcases List.mem_append.mp hd with hd' | hd'
            · exact hno d hd'
            · rw [List.mem_singleton.mp hd', freshDoor_key]
              exact hkey
      rcases List.mem_cons.mp hcp with heq | hcp'
      · subst heq
        rcases register_append clock i rest (doors ++ [freshDoor clock i cp]) with
          ⟨news, happ, _⟩
        refine ⟨freshDoor clock i cp, ?_, rfl, List.mem_singleton.mpr rfl⟩
        rw [happ]
        exact List.mem_append_left _
          (List.mem_append_right _ (List.mem_singleton.mpr rfl))
      · exact ih _ hnodup' hcon' cp hcp'

/-! ### The auto-open phase -/

/-- How `autoOpenRevealedDoors` may change one connection point: position and
direction are kept and the two flags only ever go from unset to set. -/
def CpEvo (cp cp' : ConnectionPoint) : Prop :=
  cp'.position = cp.position ∧ cp'.direction = cp.direction ∧
  (cp.isGenerated = true → cp'.isGenerated = true) ∧
  (cp.isConnected = true → cp'.isConnected = true)

/-- How `autoOpenRevealedDoors` may change one element. -/
def ElemEvo (e e' : Element) : Prop :=
  e'.id = e.id ∧ List.Forall₂ CpEvo e.connectionPoints e'.connectionPoints

/-- How `autoOpenRevealedDoors` may change one door: only the state (towards
`open`) and the generated flag (towards `true`) move. -/
def DoorEvo (d d' : SharedDoor) : Prop :=
  d'.location = d.location ∧ d'.connectedElements = d.connectedElements ∧
  (d.state = .open → d'.state = .open) ∧
  (d.isGenerated = true → d'.isGenerated = true)

/-- How `autoOpenRevealedDoors` may change the whole state. -/
def SWMEvo (S S' : SWMState) : Prop :=
  List.Forall₂ ElemEvo S.elements S'.elements ∧
  List.Forall₂ DoorEvo S.doors S'.doors

theorem cpEvo_refl (cp : ConnectionPoint) : CpEvo cp cp := ⟨rfl, rfl, id, id⟩

theorem cpEvo_trans {a b c : ConnectionPoint} (h₁ : CpEvo a b) (h₂ : CpEvo b c) :
    CpEvo a c :=
  ⟨h₂.1.trans h₁.1, h₂.2.1.trans h₁.2.1,
   fun h => h₂.2.2.1 (h₁.2.2.1 h), fun h => h₂.2.2.2 (h₁.2.2.2 h)⟩

theorem elemEvo_refl (e : Element) : ElemEvo e e :=
  ⟨rfl, List.forall₂_same.mpr fun cp _ => cpEvo_refl cp⟩

theorem elemEvo_trans {a b c : Element} (h₁ : ElemEvo a b) (h₂ : ElemEvo b c) :
    ElemEvo a c :=
  ⟨h₂.1.trans h₁.1,
   @forall₂_trans_of _ CpEvo (fun _ _ _ u v => cpEvo_trans u v) _ _ _ h₁.2 h₂.2⟩

theorem doorEvo_refl (d : SharedDoor) : DoorEvo d d := ⟨rfl, rfl, id, id⟩

theorem doorEvo_trans {a b c : SharedDoor} (h₁ : DoorEvo a b) (h₂ : DoorEvo b c) :
    DoorEvo a c :=
  ⟨h₂.1.trans h₁.1, h₂.2.1.trans h₁.2.1,
   fun h => h₂.2.2.1 (h₁.2.2.1 h), fun h => h₂.2.2.2 (h₁.2.2.2 h)⟩

theorem swmEvo_refl (S : SWMState) : SWMEvo S S :=
  ⟨List.forall₂_same.mpr fun e _ => elemEvo_refl e,
   List.forall₂_same.mpr fun d _ => doorEvo_refl d⟩

theorem swmEvo_trans {a b c : SWMState} (h₁ : SWMEvo a b) (h₂ : SWMEvo b c) :
    SWMEvo a c :=
  ⟨@forall₂_trans_of _ ElemEvo (fun _ _ _ u v => elemEvo_trans u v) _ _ _ h₁.1 h₂.1,
   @forall₂_trans_of _ DoorEvo (fun _ _ _ u v => doorEvo_trans u v) _ _ _ h₁.2 h₂.2⟩

theorem doorEvo_key {d d' : SharedDoor} (h : DoorEvo d d') : doorKey d' = doorKey d := by
  show d'.location.globalId = d.location.globalId
  rw [h.1]

theorem swmEvo_keys {S S' : SWMState} (h : SWMEvo S S') :
    S'.doors.map doorKey = S.doors.map doorKey :=
  map_eq_of_forall₂ (fun _ _ hh => doorEvo_key hh) h.2

theorem swmEvo_ids {S S' : SWMState} (h : SWMEvo S S') :
    S'.elements.map Element.id = S.elements.map Element.id :=
  map_eq_of_forall₂ (fun _ _ hh => hh.1) h.1

theorem foldl_rel {σ α : Type} {R : σ → σ → Prop} (hrefl : ∀ s, R s s)
    (htrans : ∀ a b c, R a b → R b c → R a c) {f : σ → α → σ}
    (hstep : ∀ s a, R s (f s a)) : ∀ (l : List α) (s : σ), R s (l.foldl f s) := by
  intro l
  induction l with
  | nil => intro s; exact hrefl s
  | cons a t ih =>
    intro s
    exact htrans _ _ _ (hstep s a) (ih (f s a))

theorem updateFirstElement_forall₂ {P : Element → Element → Prop}
    {f : Element → Element} (hrefl : ∀ e, P e e) (hf : ∀ e, P e (f e))
    (elements : List Element) (i : String) :
    List.Forall₂ P elements (updateFirstElement elements i f) := by
  induction elements with
  | nil => exact .nil
  | cons e rest ih =>
    simp only [updateFirstElement]
    by_cases h : e.id = i
    · rw [if_pos h]
      exact .cons (hf e) (List.forall₂_same.mpr fun x _ => hrefl x)
    · rw [if_neg h]
      exact .cons (hrefl e) ih

theorem withConnectionPoints_id (e : Element) (l : List ConnectionPoint) :
    (e.withConnectionPoints l).id = e.id := by
  cases e <;> rfl

theorem withConnectionPoints_cps (e : Element) (l : List ConnectionPoint) :
    (e.withConnectionPoints l).connectionPoints = l := by
  cases e <;> rfl

theorem elemEvo_flagStep (door : SharedDoor) (e : Element) :
    ElemEvo e (e.withConnectionPoints (e.connectionPoints.map (fun cp =>
      if cp.position.x = door.location.position.x ∧
         cp.position.y = door.location.position.y ∧
         cp.direction = door.location.direction then
        { cp with isGenerated := true, isConnected := true }
      else cp))) := by
  refine ⟨withConnectionPoints_id e _, ?_⟩
  rw [withConnectionPoints_cps]
  refine List.forall₂_map_right_iff.mpr (List.forall₂_same.mpr ?_)
  intro cp _
  by_cases h : cp.position.x = door.location.position.x ∧
      cp.position.y = door.location.position.y ∧
      cp.direction = door.location.direction
  · rw [if_pos h]
    exact ⟨rfl, rfl, fun _ => rfl, fun _ => rfl⟩
  · rw [if_neg h]
    exact cpEvo_refl cp

theorem updateCPs_forall₂ (door : SharedDoor) (els : List Element) :
    List.Forall₂ ElemEvo els (updateConnectionPointsForAutoOpenedDoor door els) := by
  rw [updateConnectionPointsForAutoOpenedDoor]
  exact foldl_rel (fun l => List.forall₂_same.mpr fun e _ => elemEvo_refl e)
    (fun _ _ _ u v => @forall₂_trans_of _ ElemEvo
      (fun _ _ _ a b => elemEvo_trans a b) _ _ _ u v)
    (fun els i => updateFirstElement_forall₂ elemEvo_refl
      (fun e => elemEvo_flagStep door e) els i)
    door.connectedElements els

theorem doors_open_evo (doors : Doors) (k : String) (cid : String) :
    List.Forall₂ DoorEvo doors
      (markDoorAsGenerated (updateDoorState doors k .open) k cid) := by
  rw [markDoorAsGenerated, updateDoorState, setDoor, setDoor, List.map_map]
  refine List.forall₂_map_right_iff.mpr (List.forall₂_same.mpr ?_)
  intro d _
  simp only [Function.comp]
  by_cases hk : d.location.globalId = k
  · rw [if_pos hk, if_pos hk]
    exact ⟨rfl, rfl, fun _ => rfl, fun _ => rfl⟩
  · rw [if_neg hk, if_neg hk]
    exact doorEvo_refl d

theorem autoOpenOneDoor_evo (S : SWMState) (k : String) :
    SWMEvo S (autoOpenOneDoor S k) := by
  cases hfind : getDoor S.doors k with
  | none =>
    simp only [autoOpenOneDoor, hfind]
    exact swmEvo_refl S
  | some door =>
    simp only [autoOpenOneDoor, hfind]
    by_cases hguard : door.state = .open ∨ door.connectedElements.length < 2
    · rw [if_pos hguard]
      exact swmEvo_refl S
    · rw [if_neg hguard]
      by_cases hall : (door.connectedElements.all
          fun i => S.elements.any fun e => e.id = i) = true
      · rw [if_pos hall]
        exact ⟨updateCPs_forall₂ door S.elements,
          doors_open_evo S.doors door.location.globalId _⟩
      · rw [if_neg hall]
        exact swmEvo_refl S

theorem autoOpen_evo (S : SWMState) : SWMEvo S (autoOpenRevealedDoors S) := by
  rw [autoOpenRevealedDoors]
  exact foldl_rel swmEvo_refl (fun _ _ _ a b => swmEvo_trans a b)
    (fun s k => autoOpenOneDoor_evo s k) _ S

/-- All of an element's connection points lying on a door's location carry
both flags. -/
def FlaggedFor (door : SharedDoor) (e : Element) : Prop :=
  ∀ cp ∈ e.connectionPoints, CpAt cp door.location →
    cp.isGenerated = true ∧ cp.isConnected = true

/-- The per-element update performed by
`updateConnectionPointsForAutoOpenedDoor`. -/
def flagElement (door : SharedDoor) (e : Element) : Element :=
  e.withConnectionPoints (e.connectionPoints.map (fun cp =>
    if cp.position.x = door.location.position.x ∧
       cp.position.y = door.location.position.y ∧
       cp.direction = door.location.direction then
      { cp with isGenerated := true, isConnected := true }
    else cp))

theorem flagElement_flagged (door : SharedDoor) (e : Element) :
    FlaggedFor door (flagElement door e) := by
  intro cp' hcp' hat
  rw [flagElement, withConnectionPoints_cps] at hcp'
  rcases List.mem_map.mp hcp' with ⟨cp, _hcp, rfl⟩
  by_cases h : cp.position.x = door.location.position.x ∧
      cp.position.y = door.location.position.y ∧
      cp.direction = door.location.direction
  · rw [if_pos h]
    exact ⟨rfl, rfl⟩
  · exfalso
    rw [if_neg h] at hat
    exact h ⟨by rw [hat.1], by rw [hat.1], hat.2⟩

theorem elemEvo_flagged {door : SharedDoor} {e e' : Element} (h : ElemEvo e e')
    (hf : FlaggedFor door e) : FlaggedFor door e' := by
  intro cp' hcp' hat
  rcases forall₂_exists_left h.2 cp' hcp' with ⟨cp, hcp, hevo⟩
  have hat0 : CpAt cp door.location := ⟨hevo.1 ▸ hat.1, hevo.2.1 ▸ hat.2⟩
  rcases hf cp hcp hat0 with ⟨hg, hc⟩
  exact ⟨hevo.2.2.1 hg, hevo.2.2.2 hc⟩

theorem updateFirstElement_mem {els : List Element} {i : String}
    {f : Element → Element} {e' : Element} (h : e' ∈ updateFirstElement els i f) :
    e' ∈ els ∨ ∃ e ∈ els, e.id = i ∧ e' = f e := by
  induction els with
  | nil => cases h
  | cons e rest ih =>
    simp only [updateFirstElement] at h
    by_cases hid : e.id = i
    · rw [if_pos hid] at h
      rcases List.mem_cons.mp h with heq | h'
      · exact .inr ⟨e, List.mem_cons_self e rest, hid, heq⟩
      · exact .inl (List.mem_cons_of_mem _ h')
    · rw [if_neg hid] at h
      rcases List.mem_cons.mp h with heq | h'
      · exact .inl (heq ▸ List.mem_cons_self e rest)
      · rcases ih h' with h'' | ⟨e₀, he₀, hid₀, heq₀⟩
        · exact .inl (List.mem_cons_of_mem _ h'')
        · exact .inr ⟨e₀, List.mem_cons_of_mem _ he₀, hid₀, heq₀⟩

theorem updateFirstElement_ids (els : List Element) (i : String)
    (f : Element → Element) (hf : ∀ e, (f e).id = e.id) :
    (updateFirstElement els i f).map Element.id = els.map Element.id := by
  induction els with
  | nil => rfl
  | cons e rest ih =>
    simp only [updateFirstElement]
    by_cases h : e.id = i
    · rw [if_pos h]
      simp [hf]
    · rw [if_neg h]
      simp [ih]

theorem updateFirstElement_flagged (door : SharedDoor) (i : String) :
    ∀ els : List Element, (els.map Element.id).Nodup →
    ∀ e' ∈ updateFirstElement els i (flagElement door), e'.id = i →
    FlaggedFor door e' := by
  intro els
  induction els with
  | nil => intro _ e' he'; cases he'
  | cons e rest ih =>
    intro hnodup e' he' hid
    have hsplit := List.nodup_cons.mp (show (e.id :: rest.map Element.id).Nodup by
      simpa using hnodup)
    simp only [updateFirstElement] at he'
    by_cases h : e.id = i
    · rw [if_pos h] at he'
      rcases List.mem_cons.mp he' with heq | he''
      · rw [heq]
        exact flagElement_flagged door e
      · exfalso
        have hmem : e'.id ∈ rest.map Element.id := List.mem_map_of_mem _ he''
        rw [hid, ← h] at hmem
        exact hsplit.1 hmem
    · rw [if_neg h] at he'
      rcases List.mem_cons.mp he' with heq | he''
      · exact absurd (by rw [← heq]; exact hid) h
      · exact ih hsplit.2 e' he'' hid

theorem fold_flag_preserved (door : SharedDoor) (i : String) :
    ∀ (ids : List String) (els : List Element),
    (∀ e ∈ els, e.id = i → FlaggedFor door e) →
    ∀ e' ∈ ids.foldl (fun l j => updateFirstElement l j (flagElement door)) els,
    e'.id = i → FlaggedFor door e' := by
  intro ids
  induction ids with
  | nil => intro els h e' he'; exact h e' he'
  | cons j rest ih =>
    intro els h
    simp only [List.foldl_cons]
    apply ih
    intro e₁ he₁ hid₁
    rcases updateFirstElement_mem he₁ with h' | ⟨e, _he, _hj, heq⟩
    · exact h e₁ h' hid₁
    · rw [heq]
      exact flagElement_flagged door e

theorem updateCPs_flags (door : SharedDoor) (els : List Element)
    (hnodup : (els.map Element.id).Nodup) :
    ∀ e' ∈ updateConnectionPointsForAutoOpenedDoor door els,
    e'.id ∈ door.connectedElements → FlaggedFor door e' := by
  rw [updateConnectionPointsForAutoOpenedDoor]
  suffices h : ∀ (ids : List String) (l : List Element),
      (l.map Element.id).Nodup →
      ∀ e' ∈ ids.foldl (fun l j => updateFirstElement l j (flagElement door)) l,
      e'.id ∈ ids → FlaggedFor door e' by
    intro e' he' hid
    exact h door.connectedElements els hnodup e' he' hid
  intro ids
  induction ids with
  | nil => intro l _ e' _ hid; cases hid
  | cons j rest ih =>
    intro l hnodup' e' he' hid
    simp only [List.foldl_cons] at he'
    have hnodup₁ : ((updateFirstElement l j (flagElement door)).map Element.id).Nodup := by
      rw [updateFirstElement_ids l j (flagElement door)
        (fun e => withConnectionPoints_id e _)]
      exact hnodup'
    rcases List.mem_cons.mp hid with heq | hid'
    · exact fold_flag_preserved door j rest _
        (updateFirstElement_flagged door j l hnodup') e' he' heq
    · exact ih _ hnodup₁ e' he' hid'

theorem structInv_evo {S S' : SWMState} (hevo : SWMEvo S S') (hinv : StructInv S) :
    StructInv S' := by
  obtain ⟨hI1, hI2, hI3, hI4, hI5⟩ := hinv
  refine ⟨?_, ?_, ?_, ?_, ?_⟩
  · intro d' hd' i hi
    rcases forall₂_exists_left hevo.2 d' hd' with ⟨d, hd, hde⟩
    rw [hde.2.1] at hi
    rcases hI1 d hd i hi with ⟨e, he, hid⟩
    rcases forall₂_exists_right hevo.1 e he with ⟨e', he', hee⟩
    exact ⟨e', he', hee.1.trans hid⟩
  · rw [swmEvo_ids hevo]
    exact hI2
  · intro e' he' cp' hcp'
    rcases forall₂_exists_left hevo.1 e' he' with ⟨e, he, hee⟩
    rcases forall₂_exists_left hee.2 cp' hcp' with ⟨cp, hcp, hcpe⟩
    rcases hI3 e he cp hcp with ⟨d, hd, hk, hi, hat⟩
    rcases forall₂_exists_right hevo.2 d hd with ⟨d', hd', hde⟩
    have hck : cpKey cp' = cpKey cp := by
      simp only [cpKey, hcpe.1, hcpe.2.1]
    refine ⟨d', hd', ?_, ?_, ?_⟩
    · rw [doorEvo_key hde, hk, hck]
    · rw [hde.2.1, hee.1]
      exact hi
    · rw [hde.1]
      exact ⟨hcpe.1.trans hat.1, hcpe.2.1.trans hat.2⟩
  · intro d' hd'
    rcases forall₂_exists_left hevo.2 d' hd' with ⟨d, hd, hde⟩
    rw [doorEvo_key hde, hde.1]
    exact hI4 d hd
  · rw [swmEvo_keys hevo]
    exact hI5

theorem autoOpenOneDoor_opens {S : SWMState} {k : String}
    (hlive : ∀ d ∈ S.doors, ∀ i ∈ d.connectedElements, ∃ e ∈ S.elements, e.id = i)
    (hnodup : (S.doors.map doorKey).Nodup) :
    ∀ d' ∈ (autoOpenOneDoor S k).doors, doorKey d' = k →
    2 ≤ d'.connectedElements.length → d'.state = .open := by
  cases hfind : getDoor S.doors k with
  | none =>
    intro d' hd' hk _h2
    exfalso
    simp only [autoOpenOneDoor, hfind] at hd'
    exact getDoor_none hfind d' hd' hk
  | some door =>
    have hdm := getDoor_mem hfind
    by_cases hguard : door.state = .open ∨ door.connectedElements.length < 2
    · intro d' hd' hk h2
      simp only [autoOpenOneDoor, hfind, if_pos hguard] at hd'
      have hdd : d' = door :=
        List.inj_on_of_nodup_map hnodup hd' hdm.1 (by rw [hk, hdm.2])
      subst hdd
      rcases hguard with h | h
      · exact h
      · omega
    · have hall : (door.connectedElements.all
          fun i => S.elements.any fun e => e.id = i) = true := by
        rw [List.all_eq_true]
        intro i hi
        rw [List.any_eq_true]
        rcases hlive door hdm.1 i hi with ⟨e, he, hid⟩
        exact ⟨e, he, by simpa using hid⟩
      intro d' hd' hk _h2
      simp only [autoOpenOneDoor, hfind, if_neg hguard, if_pos hall] at hd'
      rw [markDoorAsGenerated, updateDoorState, setDoor, setDoor, List.map_map] at hd'
      rcases List.mem_map.mp hd' with ⟨d, hd, heq⟩
      by_cases hkd : d.location.globalId = door.location.globalId
      · rw [← heq]
        simp [Function.comp, hkd]
      · exfalso
        simp only [Function.comp, if_neg hkd] at heq
        subst heq
        have hdd : d = door :=
          List.inj_on_of_nodup_map hnodup hd hdm.1 (by rw [hk, hdm.2])
        exact hkd (by rw [hdd])

theorem autoOpenOneDoor_flags {S : SWMState} {k : String}
    (hinv : StructInv S) (hof : OpenFlags S) : OpenFlags (autoOpenOneDoor S k) := by
  obtain ⟨hI1, hI2, hI3, hI4, hI5⟩ := hinv
  cases hfind : getDoor S.doors k with
  | none => simpa only [autoOpenOneDoor, hfind] using hof
  | some door =>
    by_cases hguard : door.state = .open ∨ door.connectedElements.length < 2
    · simpa only [autoOpenOneDoor, hfind, if_pos hguard] using hof
    · by_cases hall : (door.connectedElements.all
          fun i => S.elements.any fun e => e.id = i) = true
      · have hdm := getDoor_mem hfind
        intro d' hd' hopen
        simp only [autoOpenOneDoor, hfind, if_neg hguard, if_pos hall] at hd' ⊢
        rw [markDoorAsGenerated, updateDoorState, setDoor, setDoor, List.map_map] at hd'
        rcases List.mem_map.mp hd' with ⟨d, hd, heq⟩
        by_cases hkd : d.location.globalId = door.location.globalId
        · have hddoor : d = door := List.inj_on_of_nodup_map hI5 hd hdm.1 hkd
          subst hddoor
          have hd'eq : d' = ({ d with state := (DoorState.«open»), isGenerated := true, connectedElementId := some (String.intercalate "," d.connectedElements) }) := by
            rw [← heq]
            simp [Function.comp, hkd]
          subst hd'eq
          refine ⟨rfl, ?_⟩
          intro e' he' cp' hcp' hat
          rcases forall₂_exists_left (updateCPs_forall₂ d S.elements) e' he'
            with ⟨e, he, hee⟩
          rcases forall₂_exists_left hee.2 cp' hcp' with ⟨cp, hcp, hcpe⟩
          have hat0 : CpAt cp d.location := ⟨hcpe.1 ▸ hat.1, hcpe.2.1 ▸ hat.2⟩
          rcases hI3 e he cp hcp with ⟨d₀, hd₀, hk₀, hi₀, _hat₀⟩
          have hd₀d : d₀ = d := by
            refine List.inj_on_of_nodup_map hI5 hd₀ hdm.1 ?_
            rw [hk₀, hI4 d hdm.1]
            simp only [cpKey, hat0.1, hat0.2]
          exact updateCPs_flags d S.elements hI2 e' he'
            (by rw [hee.1]; rw [hd₀d] at hi₀; exact hi₀) cp' hcp' hat
        · simp only [Function.comp, if_neg hkd] at heq
          subst heq
          rcases hof d hd hopen with ⟨hg, hflags⟩
          refine ⟨hg, ?_⟩
          intro e' he' cp' hcp' hat
          rcases forall₂_exists_left (updateCPs_forall₂ door S.elements) e' he'
            with ⟨e, he, hee⟩
          rcases forall₂_exists_left hee.2 cp' hcp' with ⟨cp, hcp, hcpe⟩
          have hat0 : CpAt cp d.location := ⟨hcpe.1 ▸ hat.1, hcpe.2.1 ▸ hat.2⟩
          rcases hflags e he cp hcp hat0 with ⟨h1, h2⟩
          exact ⟨hcpe.2.2.1 h1, hcpe.2.2.2 h2⟩
      · simpa only [autoOpenOneDoor, hfind, if_neg hguard, if_neg hall] using hof

theorem autoOpen_go (ks : List String) :
    ∀ S : SWMState, StructInv S →
    (∀ d ∈ S.doors, 2 ≤ d.connectedElements.length →
      d.state = .open ∨ doorKey d ∈ ks) →
    ∀ d' ∈ (ks.foldl autoOpenOneDoor S).doors, 2 ≤ d'.connectedElements.length →
    d'.state = .open := by
  induction ks with
  | nil =>
    intro S _ hcov d' hd' h2
    rcases hcov d' hd' h2 with h | h
    · exact h
    · cases h
  | cons k rest ih =>
    intro S hinv hcov
    simp only [List.foldl_cons]
    have hevo := autoOpenOneDoor_evo S k
    apply ih _ (structInv_evo hevo hinv)
    intro d₁ hd₁ h2
    rcases forall₂_exists_left hevo.2 d₁ hd₁ with ⟨d, hd, hde⟩
    have h2d : 2 ≤ d.connectedElements.length := by
      rw [← hde.2.1]
      exact h2
    rcases hcov d hd h2d with hopen | hk
    · exact .inl (hde.2.2.1 hopen)
    · rcases List.mem_cons.mp hk with heq | hk'
      · exact .inl (autoOpenOneDoor_opens hinv.1 hinv.2.2.2.2 d₁ hd₁
          (by rw [doorEvo_key hde, heq]) h2)
      · exact .inr (by rw [doorEvo_key hde]; exact hk')

theorem autoOpen_fold_flags (ks : List String) :
    ∀ S : SWMState, StructInv S → OpenFlags S →
    StructInv (ks.foldl autoOpenOneDoor S) ∧ OpenFlags (ks.foldl autoOpenOneDoor S) := by
  induction ks with
  | nil =>
    intro S h1 h2
    exact ⟨h1, h2⟩
  | cons k rest ih =>
    intro S h1 h2
    simp only [List.foldl_cons]
    exact ih _ (structInv_evo (autoOpenOneDoor_evo S k) h1) (autoOpenOneDoor_flags h1 h2)

/-! ### Assembling `addElement` -/

/-- The intermediate state `addElement` builds before running
`autoOpenRevealedDoors`: the element appended (with its connected points) and
new doors registered. -/
def addStage1 (clock : Int) (S : SWMState) (e : Element) : SWMState :=
  { elements := S.elements ++ [e.withConnectionPoints
      (connectElementToExistingDoors S.doors e.id e.connectionPoints).2],
    doors := registerNewDoors clock e.id
      (connectElementToExistingDoors S.doors e.id e.connectionPoints).1
      (connectElementToExistingDoors S.doors e.id e.connectionPoints).2 }

theorem addElement_fst (clock : Int) (S : SWMState) (e : Element) :
    (addElement clock S e).1 = autoOpenRevealedDoors (addStage1 clock S e) := rfl

theorem addStage1_struct {S : SWMState} {e : Element} (clock : Int)
    (hinv : StructInv S) (hfresh : FreshElement S e) :
    StructInv (addStage1 clock S e) := by
  obtain ⟨hI1, hI2, hI3, hI4, hI5⟩ := hinv
  obtain ⟨hfid, hfold, hfself⟩ := hfresh
  set cps1 := (connectElementToExistingDoors S.doors e.id e.connectionPoints).2
    with hcps1def
  set doors1 := (connectElementToExistingDoors S.doors e.id e.connectionPoints).1
    with hdoors1def
  have hext : List.Forall₂ (DoorExt e.id) S.doors doors1 :=
    connect_doors e.id e.connectionPoints S.doors hI5
  have hkeys1 : doors1.map doorKey = S.doors.map doorKey :=
    map_eq_of_forall₂ (fun _ _ h => doorExt_key h) hext
  have hnodup1 : (doors1.map doorKey).Nodup := by
    rw [hkeys1]
    exact hI5
  have hcps : List.Forall₂ (CpConn S.doors) e.connectionPoints cps1 :=
    connect_cps_orig e.id e.connectionPoints S.doors hI5
  rcases register_append clock e.id cps1 doors1 with ⟨news, happ, hnews⟩
  have hcon : ∀ c1 ∈ cps1,
      (∃ d ∈ doors1, doorKey d = cpKey c1 ∧ e.id ∈ d.connectedElements) ∨
      (∀ d ∈ doors1, doorKey d ≠ cpKey c1) := by
    intro c1 hc1
    rcases forall₂_exists_left hcps c1 hc1 with ⟨c, hc, hcc⟩
    have hkey : cpKey c1 = cpKey c := by
      simp only [cpKey, hcc.1, hcc.2.1]
    by_cases hex : ∃ d₀ ∈ S.doors, doorKey d₀ = cpKey c
    · left
      rcases connect_attach e.id e.connectionPoints S.doors hI5 c hc hex with
        ⟨d₁, hd₁, hk₁, hi₁⟩
      exact ⟨d₁, hd₁, by rw [hk₁, hkey], hi₁⟩
    · right
      intro d₁ hd₁
      rcases forall₂_exists_left hext d₁ hd₁ with ⟨d₀, hd₀, hextd⟩
      rw [doorExt_key hextd, hkey]
      exact fun hcontra => hex ⟨d₀, hd₀, hcontra⟩
  have hatt := register_attach clock e.id cps1 doors1 hnodup1 hcon
  refine ⟨?_, ?_, ?_, ?_, ?_⟩
  · intro d hd x hx
    replace hd : d ∈ registerNewDoors clock e.id doors1 cps1 := hd
    rw [happ] at hd
    rcases List.mem_append.mp hd with hd1 | hdn
    · rcases forall₂_exists_left hext d hd1 with ⟨d₀, hd₀, hextd⟩
      rcases doorExt_ces_cases hextd hx with hx0 | hxe
      · rcases hI1 d₀ hd₀ x hx0 with ⟨el, hel, hid⟩
        exact ⟨el, List.mem_append_left _ hel, hid⟩
      · refine ⟨e.withConnectionPoints cps1,
          List.mem_append_right _ (List.mem_singleton.mpr rfl), ?_⟩
        rw [withConnectionPoints_id, hxe]
    · rcases hnews d hdn with ⟨_, hces, _, _, _⟩
      rw [hces] at hx
      refine ⟨e.withConnectionPoints cps1,
        List.mem_append_right _ (List.mem_singleton.mpr rfl), ?_⟩
      rw [withConnectionPoints_id, List.mem_singleton.mp hx]
  · show ((S.elements ++ [e.withConnectionPoints cps1]).map Element.id).Nodup
    rw [List.map_append]
    refine List.Nodup.append hI2 (by simp) ?_
    intro x hx1 hx2
    rcases List.mem_map.mp hx1 with ⟨el, hel, rfl⟩
    simp only [List.map_cons, List.map_nil, List.mem_singleton,
      withConnectionPoints_id] at hx2
    exact hfid el hel hx2
  · intro el hel cp' hcp'
    replace hel : el ∈ S.elements ++ [e.withConnectionPoints cps1] := hel
    rcases List.mem_append.mp hel with hel1 | hel2
    · rcases hI3 el hel1 cp' hcp' with ⟨d₀, hd₀, hk₀, hi₀, hat₀⟩
      rcases forall₂_exists_right hext d₀ hd₀ with ⟨d₁, hd₁, hextd⟩
      refine ⟨d₁, ?_, ?_, ?_, ?_⟩
      · show d₁ ∈ registerNewDoors clock e.id doors1 cps1
        rw [happ]
        exact List.mem_append_left _ hd₁
      · rw [doorExt_key hextd, hk₀]
      · exact doorExt_ces_sub hextd hi₀
      · rw [hextd.1]
        exact hat₀
    · have hele := List.mem_singleton.mp hel2
      subst hele
      rw [withConnectionPoints_cps] at hcp'
      rcases hatt cp' hcp' with ⟨d, hd, hk, hi⟩
      refine ⟨d, hd, hk, ?_, ?_⟩
      · rw [withConnectionPoints_id]
        exact hi
      · rcases forall₂_exists_left hcps cp' hcp' with ⟨c, hc, hcc⟩
        have hkey : cpKey cp' = cpKey c := by
          simp only [cpKey, hcc.1, hcc.2.1]
        have hd2 : d ∈ doors1 ++ news := by
          rw [← happ]
          exact hd
        rcases List.mem_append.mp hd2 with hd1 | hdn
        · rcases forall₂_exists_left hext d hd1 with ⟨d₀, hd₀, hextd⟩
          have hat := hfold c hc d₀ hd₀ (by rw [← doorExt_key hextd, hk, hkey])
          rw [hextd.1]
          exact ⟨hcc.1.trans hat.1, hcc.2.1.trans hat.2⟩
        · rcases hnews d hdn with ⟨_, _, _, hkd, c2, hc2, hat2⟩
          rcases forall₂_exists_left hcps c2 hc2 with ⟨cb, hcb, hccb⟩
          have hkcb : doorKey d = cpKey cb := by
            rw [hkd]
            simp only [cpKey, ← hat2.1, hccb.1, ← hat2.2, hccb.2.1]
          have heqk : cpKey c = cpKey cb := by
            rw [← hkey, ← hk, hkcb]
          have hpd := hfself c hc cb hcb heqk
          exact ⟨by rw [hcc.1, hpd.1, ← hccb.1, hat2.1],
            by rw [hcc.2.1, hpd.2, ← hccb.2.1, hat2.2]⟩
  · intro d hd
    replace hd : d ∈ registerNewDoors clock e.id doors1 cps1 := hd
    rw [happ] at hd
    rcases List.mem_append.mp hd with hd1 | hdn
    · rcases forall₂_exists_left hext d hd1 with ⟨d₀, hd₀, hextd⟩
      rw [doorExt_key hextd, hextd.1]
      exact hI4 d₀ hd₀
    · exact (hnews d hdn).2.2.2.1
  · show ((registerNewDoors clock e.id doors1 cps1).map doorKey).Nodup
    exact register_keys_nodup clock e.id cps1 doors1 hnodup1

theorem addStage1_flags {S : SWMState} {e : Element} (clock : Int)
    (hinv : StructInv S) (hof : OpenFlags S) :
    OpenFlags (addStage1 clock S e) := by
  obtain ⟨hI1, hI2, hI3, hI4, hI5⟩ := hinv
  set cps1 := (connectElementToExistingDoors S.doors e.id e.connectionPoints).2
    with hcps1def
  set doors1 := (connectElementToExistingDoors S.doors e.id e.connectionPoints).1
    with hdoors1def
  have hext : List.Forall₂ (DoorExt e.id) S.doors doors1 :=
    connect_doors e.id e.connectionPoints S.doors hI5
  have hcps : List.Forall₂ (CpConn S.doors) e.connectionPoints cps1 :=
    connect_cps_orig e.id e.connectionPoints S.doors hI5
  rcases register_append clock e.id cps1 doors1 with ⟨news, happ, hnews⟩
  intro d hd hopen
  replace hd : d ∈ registerNewDoors clock e.id doors1 cps1 := hd
  rw [happ] at hd
  rcases List.mem_append.mp hd with hd1 | hdn
  · rcases forall₂_exists_left hext d hd1 with ⟨d₀, hd₀, hextd⟩
    have hopen₀ : d₀.state = .open := by
      rw [← hextd.2.1]
      exact hopen
    rcases hof d₀ hd₀ hopen₀ with ⟨hgen₀, hflags₀⟩
    refine ⟨by rw [hextd.2.2.1]; exact hgen₀, ?_⟩
    intro el hel cp' hcp' hat
    replace hel : el ∈ S.elements ++ [e.withConnectionPoints cps1] := hel
    have hat' : CpAt cp' d₀.location := by
      rw [← hextd.1]
      exact hat
    rcases List.mem_append.mp hel with hel1 | hel2
    · exact hflags₀ el hel1 cp' hcp' hat'
    · have hele := List.mem_singleton.mp hel2
      subst hele
      rw [withConnectionPoints_cps] at hcp'
      rcases forall₂_exists_left hcps cp' hcp' with ⟨c, hc, hcc⟩
      have hatc : CpAt c d₀.location := ⟨hcc.1 ▸ hat'.1, hcc.2.1 ▸ hat'.2⟩
      have hkd₀ : doorKey d₀ = cpKey c := by
        rw [hI4 d₀ hd₀]
        simp only [cpKey, ← hatc.1, ← hatc.2]
      rcases hcc.2.2.2 d₀ hd₀ hkd₀ with ⟨hconn', hgen'⟩
      exact ⟨by rw [hgen']; exact hgen₀, hconn'⟩
  · exfalso
    have hclosed := (hnews d hdn).1
    rw [hclosed] at hopen
    cases hopen

/-- `addElement` preserves the shared-wall invariant when the incoming element
is fresh. -/
theorem swmInv_addElement {S : SWMState} {e : Element} (clock : Int)
    (hinv : SWMInv S) (hfresh : FreshElement S e) :
    SWMInv (addElement clock S e).1 := by
  obtain ⟨hstruct, hof, _hshared⟩ := hinv
  have h1 := addStage1_struct clock hstruct hfresh
  have h2 := @addStage1_flags S e clock hstruct hof
  rw [addElement_fst]
  have hfold := autoOpen_fold_flags
    ((addStage1 clock S e).doors.map (fun d => d.location.globalId))
    (addStage1 clock S e) h1 h2
  refine ⟨hfold.1, hfold.2, ?_⟩
  intro d' hd' hlen
  refine autoOpen_go _ _ h1 ?_ d' hd' hlen
  intro d hd _h2
  exact .inr (List.mem_map_of_mem _ hd)

theorem swmInv_reset : SWMInv swmReset :=
  ⟨⟨fun d hd => absurd hd (List.not_mem_nil d),
    List.nodup_nil,
    fun e he => absurd he (List.not_mem_nil e),
    fun d hd => absurd hd (List.not_mem_nil d),
    List.nodup_nil⟩,
   fun d hd => absurd hd (List.not_mem_nil d),
   fun d hd => absurd hd (List.not_mem_nil d)⟩

/-- Every state reachable through `reset`/`addElement` satisfies the
shared-wall invariant. -/
theorem reachable_swmInv {S : SWMState} (h : ReachableSWM S) : SWMInv S := by
  induction h with
  | base => exact swmInv_reset
  | step clock _h hfresh ih => exact swmInv_addElement _ ih hfresh

/-! ### C2: concrete instances and claim theorems -/

/-- A minimal room used to exercise `addElement` concretely. -/
def c2room (i : String) (cp : ConnectionPoint) : Element :=
  .room { id := i, shape := .square, type := .standard, size := .small,
          position := ⟨2, 3⟩, width := 2, height := 2,
          connectionPoints := [cp], templateId := none, isGenerated := true,
          gridPattern := none }

/-- The east side of the wall cell `(2, 3)`. -/
def cpE : ConnectionPoint :=
  { direction := .east, position := ⟨2, 3⟩, isConnected := false,
    connectedElementId := none, isGenerated := false, generationSeed := none,
    state := .ungenerated }

/-- The west side of the same cell: `cpE`'s opposite-facing partner. -/
def cpW : ConnectionPoint := { cpE with direction := .west }

/-- Rooms `A` (east-facing) and `B` (west-facing) added in sequence: a
matching opposite-facing pair at the same cell. -/
def S2opp : SWMState :=
  (addElement 11 (addElement 10 swmReset (c2room "A" cpE)).1 (c2room "B" cpW)).1

/-- Rooms `A` and `B` both referencing the east side of the cell, so their
connection points resolve to the same registry key. -/
def S2same : SWMState :=
  (addElement 11 (addElement 10 swmReset (c2room "A" cpE)).1 (c2room "B" cpE)).1

/-- `A`'s connection point as stored after both insertions into `S2same`. -/
def cpEflagged : ConnectionPoint :=
  { cpE with isGenerated := true, isConnected := true }

/-- `B`'s connection point as stored after both insertions into `S2same`. -/
def cpEflaggedB : ConnectionPoint :=
  { cpE with isGenerated := true, isConnected := true, connectedElementId := some "A" }

/-- C2 (counterexample): the claim fails for matching opposite-facing
connection points.  In the reachable state `S2opp`, rooms `A` and `B` hold
connectable (same cell, opposite directions) connection points, yet after the
second `addElement` call both sides' doors are closed, neither is marked
generated, and no connection point of either element has `isGenerated` or
`isConnected` set: the two sides resolve to two distinct registry keys
(`door-2-3-east` / `door-2-3-west`), so each door has a single connected
element and `autoOpenRevealedDoors` never fires. -/
theorem c2_counterexample :
    ReachableSWM S2opp ∧
    areConnectionPointsConnectable cpE cpW = true ∧
    (c2room "A" cpE) ∈ S2opp.elements ∧ (c2room "B" cpW) ∈ S2opp.elements ∧
    swmGetDoorState S2opp ⟨2, 3⟩ .east = .closed ∧
    swmGetDoorState S2opp ⟨2, 3⟩ .west = .closed ∧
    swmIsDoorGenerated S2opp ⟨2, 3⟩ .east = false ∧
    swmIsDoorGenerated S2opp ⟨2, 3⟩ .west = false ∧
    (∀ e ∈ S2opp.elements, ∀ cp ∈ e.connectionPoints,
      cp.isGenerated = false ∧ cp.isConnected = false) :=
  ⟨ReachableSWM.step 11 (ReachableSWM.step 10 .base (by decide)) (by decide),
   by decide, by decide, by decide, by decide, by decide, by decide, by decide,
   by decide⟩

/-- C2 (amended): after every `addElement` call (that is, in every manager
state reachable from `reset` through `addElement` on fresh elements), any two
distinct stored elements whose connection points lie at the same cell with the
same facing direction — the configuration that actually yields one shared
registry key — have their shared door `open` and marked generated, and both
elements' corresponding connection points carry `isGenerated = true` and
`isConnected = true`.  (For opposite-facing pairs the keys differ and the
property fails; see the counterexample.) -/
theorem c2_amended {S : SWMState} (hreach : ReachableSWM S)
    {e1 e2 : Element} (h1 : e1 ∈ S.elements) (h2 : e2 ∈ S.elements)
    (hne : e1.id ≠ e2.id) {cp1 cp2 : ConnectionPoint}
    (hcp1 : cp1 ∈ e1.connectionPoints) (hcp2 : cp2 ∈ e2.connectionPoints)
    (hpos : cp1.position = cp2.position) (hdir : cp1.direction = cp2.direction) :
    swmGetDoorState S cp1.position cp1.direction = .open ∧
    swmIsDoorGenerated S cp1.position cp1.direction = true ∧
    cp1.isGenerated = true ∧ cp1.isConnected = true ∧
    cp2.isGenerated = true ∧ cp2.isConnected = true := by
  obtain ⟨⟨hI1, hI2, hI3, hI4, hI5⟩, hof, hshared⟩ := reachable_swmInv hreach
  rcases hI3 e1 h1 cp1 hcp1 with ⟨d, hd, hk, hi1, hat1⟩
  rcases hI3 e2 h2 cp2 hcp2 with ⟨d₂, hd₂, hk₂, hi2, hat2⟩
  have hkk : cpKey cp2 = cpKey cp1 := by
    simp only [cpKey, hpos, hdir]
  have hdd : d₂ = d := List.inj_on_of_nodup_map hI5 hd₂ hd (by rw [hk₂, hkk, ← hk])
  rw [hdd] at hi2 hat2
  have hlen : 2 ≤ d.connectedElements.length :=
    two_le_length_of_mem_ne hi1 hi2 hne
  have hopen : d.state = .open := hshared d hd hlen
  rcases hof d hd hopen with ⟨hgen, hflags⟩
  have hsome : getDoor S.doors (createDoorId cp1.position cp1.direction) = some d :=
    getDoor_eq_some_of_nodup hI5 hd hk
  refine ⟨?_, ?_, ?_, ?_⟩
  · show registryGetDoorState S.doors cp1.position cp1.direction = .open
    rw [registryGetDoorState, getDoorByLocation, hsome]
    exact hopen
  · show registryIsDoorGenerated S.doors cp1.position cp1.direction = true
    rw [registryIsDoorGenerated, getDoorByLocation, hsome]
    exact hgen
  · exact (hflags e1 h1 cp1 hcp1 hat1).1
  · refine ⟨(hflags e1 h1 cp1 hcp1 hat1).2, ?_, ?_⟩
    · exact (hflags e2 h2 cp2 hcp2 hat2).1
    · exact (hflags e2 h2 cp2 hcp2 hat2).2

/-- C2 (witness): the amended statement at a concrete reachable state — rooms
`A` and `B` both holding the east side of cell `(2, 3)`; the shared door is
open and generated and both stored connection points carry both flags. -/
theorem c2_witness :
    swmGetDoorState S2same ⟨2, 3⟩ .east = .open ∧
    swmIsDoorGenerated S2same ⟨2, 3⟩ .east = true ∧
    cpEflagged.isGenerated = true ∧ cpEflagged.isConnected = true ∧
    cpEflaggedB.isGenerated = true ∧ cpEflaggedB.isConnected = true :=
  @c2_amended S2same
    (ReachableSWM.step 11 (ReachableSWM.step 10 .base (by decide)) (by decide))
    (c2room "A" cpEflagged) (c2room "B" cpEflaggedB) (by decide) (by decide)
    (by decide) cpEflagged cpEflaggedB (by decide) (by decide) (by decide)
    (by decide)

end DungeonGen
